import Mathlib

/-!
Verification of the Yelp business-performance analytics backend.

The Lean definitions below are a shallow embedding of the backend's data
model and query layer:

* `Business` / `Review` mirror `models/business.py` and `models/review.py`
  (SQL `Float` columns are modeled as `Rat`; the unused JSON metadata
  columns `attributes` / `hours` are not needed by any query modeled here).
* The repository functions mirror `repositories/business_repository.py`
  and `repositories/review_repository.py`: SQL `WHERE` becomes `List.filter`,
  `JOIN` becomes a product-style expansion, `GROUP BY x ORDER BY x` becomes
  grouping over a sorted list of distinct keys, and `ORDER BY` becomes an
  insertion sort by the corresponding lexicographic key.
* PostgreSQL primitives used by the queries are modeled explicitly:
  `date_trunc` returns a timestamp at the midnight opening its bucket;
  `dateTrunc` computes the calendar day of that timestamp (ISO weeks
  starting Monday) and `timestampIso` its `datetime.isoformat()`
  serialization `YYYY-MM-DDT00:00:00`; `pg_trgm`'s `similarity` is
  `pgSimilarity` (padded-word trigram sets, as documented for pg_trgm);
  `lower` is `strLower` (ASCII lowering, matching Python's `str.lower`
  on the ASCII range); `hay ILIKE pattern` is `likeMatch` with the full
  SQL pattern language (`%` any run, `_` any one character, `\` escaping
  the next pattern character), so `ILIKE '%needle%'` is `ilikeContains` —
  which coincides with plain case-insensitive substring containment
  exactly when the needle has no wildcard or escape characters
  (`ilikeContains_eq_substrContains`).
* The service functions mirror `services/analytics_service.py` and
  `services/business_service.py`, with `HTTPException` / `ValueError`
  modeled by an `Except AppError` result.
-/

/-- Calendar date, the value stored in the `reviews.date` column. -/
structure Date where
  year : Nat
  month : Nat
  day : Nat
  deriving DecidableEq, Repr

/-- Lexicographic key (year, month, day) of a date. -/
def dateKey (d : Date) : Nat ×ₗ (Nat ×ₗ Nat) :=
  toLex (d.year, toLex (d.month, d.day))

/-- Dates are linearly ordered by (year, month, day). -/
instance : LinearOrder Date :=
  LinearOrder.lift' dateKey (by
    intro a b h
    cases a
    cases b
    simp only [dateKey, toLex, Equiv.refl_apply, Prod.mk.injEq] at h
    simp_all)

instance (a b : Date) : Decidable (a ≤ b) :=
  inferInstanceAs (Decidable (dateKey a ≤ dateKey b))

instance (a b : Date) : Decidable (a < b) :=
  inferInstanceAs (Decidable (dateKey a < dateKey b))

/-- Aggregation period accepted by `date_trunc`. -/
inductive Period where
  | day
  | week
  | month
  | year
  deriving DecidableEq, Repr

/-- Days since 0000-03-01 in the proleptic Gregorian calendar
(standard civil-from-days arithmetic; total on `Nat` fields, meaningful
for the valid dates stored in the database). -/
def toDays (dt : Date) : Nat :=
  let y := if dt.month ≤ 2 then dt.year - 1 else dt.year
  let m := if dt.month ≤ 2 then dt.month + 9 else dt.month - 3
  y * 365 + y / 4 - y / 100 + y / 400 + (153 * m + 2) / 5 + dt.day - 1

/-- Inverse of `toDays` (days-to-civil arithmetic). -/
def ofDays (z : Nat) : Date :=
  let era := z / 146097
  let doe := z % 146097
  let yoe := (doe - doe / 1460 + doe / 36524 - doe / 146096) / 365
  let y := yoe + era * 400
  let doy := doe - (365 * yoe + yoe / 4 - yoe / 100)
  let mp := (5 * doy + 2) / 153
  let d := doy - (153 * mp + 2) / 5 + 1
  let m := if mp < 10 then mp + 3 else mp - 9
  ⟨if m ≤ 2 then y + 1 else y, m, d⟩

/-- Monday-of-the-week truncation (PostgreSQL `date_trunc('week', ...)`
truncates to the ISO week start). Day 0 of `toDays` is a Wednesday. -/
def truncWeek (dt : Date) : Date :=
  let t := toDays dt
  ofDays (t - (t + 2) % 7)

/-- PostgreSQL `date_trunc(period, d)` on a `date` column returns the
*timestamp* `YYYY-MM-DD 00:00:00` opening the bucket; its time part is
identically midnight, so the model carries the calendar-day component
(`dateTrunc`) and serializes the timestamp with `timestampIso` below. -/
def dateTrunc : Period → Date → Date
  | .day, d => d
  | .week, d => truncWeek d
  | .month, d => ⟨d.year, d.month, 1⟩
  | .year, d => ⟨d.year, 1, 1⟩

/-- Left-pad a number to two digits. -/
def pad2 (n : Nat) : String :=
  if n < 10 then "0" ++ toString n else toString n

/-- Left-pad a number to four digits. -/
def pad4 (n : Nat) : String :=
  if n < 10 then "000" ++ toString n
  else if n < 100 then "00" ++ toString n
  else if n < 1000 then "0" ++ toString n
  else toString n

/-- Model of Python's `date.isoformat()`: `YYYY-MM-DD`. -/
def Date.isoformat (d : Date) : String :=
  pad4 d.year ++ "-" ++ pad2 d.month ++ "-" ++ pad2 d.day

/-- `datetime.isoformat()` of the midnight timestamp `date_trunc`
returns for the bucket whose calendar day is `d`:
`YYYY-MM-DDT00:00:00` (this is what `row.period_start.isoformat()`
produces in the repository shaping loops). -/
def timestampIso (d : Date) : String :=
  d.isoformat ++ "T00:00:00"

/-- Row of the `businesses` table (`models/business.py`). -/
structure Business where
  business_id : String
  name : String
  city : String
  state : String
  latitude : Rat
  longitude : Rat
  review_count : Nat
  stars : Rat
  is_open : Nat
  photo_count : Rat
  categories : String
  deriving DecidableEq, Repr

/-- Row of the `reviews` table (`models/review.py`). -/
structure Review where
  review_id : String
  business_id : String
  text : String
  stars : Rat
  date : Date
  user_id : String
  useful : Nat
  funny : Nat
  cool : Nat
  sentiment_label : String
  sentiment_confidence : Rat
  prob_negative : Rat
  prob_neutral : Rat
  prob_positive : Rat
  sentiment_score_prob_diff : Rat
  sentiment_score_expected : Rat
  sentiment_score_logit : Rat
  deriving DecidableEq, Repr

/-- The relational data store: the two tables the analytics queries read. -/
structure DB where
  businesses : List Business
  reviews : List Review
  deriving DecidableEq, Repr

/-- ASCII lowercase of one character (the behavior of SQL `lower`,
Python `str.lower`, and pg_trgm's internal lowercasing on the ASCII
letters). -/
def charLower (c : Char) : Char :=
  if h : 65 ≤ c.toNat ∧ c.toNat ≤ 90 then
    Char.ofNatAux (c.toNat + 32) (Or.inl (by omega))
  else c

/-- ASCII lowercase of a string. -/
def strLower (s : String) : String := ⟨s.data.map charLower⟩

/-- Model of Python `str.strip()`: drop whitespace from both ends. -/
def pyStrip (s : String) : String :=
  ⟨((s.data.dropWhile Char.isWhitespace).reverse.dropWhile Char.isWhitespace).reverse⟩

/-- The cleaned search query: Python `query.strip().lower()`
(`business_repository.py:147`). -/
def cleanQuery (q : String) : String := strLower (pyStrip q)

/-- Helper for `splitTerms`: the first argument accumulates the current
term, reversed. -/
def splitTermsAux : List Char → List Char → List String
  | cur, [] => if cur.isEmpty then [] else [⟨cur.reverse⟩]
  | cur, c :: t =>
    if c.isWhitespace then
      if cur.isEmpty then splitTermsAux [] t else (⟨cur.reverse⟩ : String) :: splitTermsAux [] t
    else splitTermsAux (c :: cur) t

/-- Model of Python `str.split()` with no separator: split on whitespace
runs, discarding empty pieces (`business_repository.py:150`). -/
def splitTerms (s : String) : List String := splitTermsAux [] s.data

/-- Containment of one character list in another (contiguous substring). -/
def listContains (needle : List Char) : List Char → Bool
  | [] => needle.isEmpty
  | c :: t => needle.isPrefixOf (c :: t) || listContains needle t

/-- Plain case-insensitive substring containment: the reading the spec's
prose gives to "contains". The code's `ILIKE '%term%'` is `ilikeContains`
below; the two agree exactly when the needle has no SQL wildcard or
escape characters (`ilikeContains_eq_substrContains`). -/
def substrContains (hay needle : String) : Bool :=
  listContains (strLower needle).data (strLower hay).data

/-- The SQL `LIKE` wildcard `%` (any run of characters). -/
def pctChar : Char := Char.ofNat 37

/-- The SQL `LIKE` wildcard `_` (any single character). -/
def uscChar : Char := Char.ofNat 95

/-- The default SQL `LIKE` escape character `\`. -/
def bslChar : Char := Char.ofNat 92

/-- SQL `LIKE` pattern matching, fueled so that it evaluates by kernel
reduction: `%` matches any run, `_` matches exactly one character, `\`
makes the following pattern character literal (a pattern ending in a
bare `\` is a PostgreSQL error, modeled as matching nothing). Every
recursive call shrinks `pattern.length + string.length`, so fuel
`pattern.length + string.length + 1` makes the function total on its
intended domain. -/
def likeMatchF : Nat → List Char → List Char → Bool
  | 0, _, _ => false
  | Nat.succ fuel, p, s =>
    match p with
    | [] => s.isEmpty
    | c :: pt =>
      if c = pctChar then
        likeMatchF fuel pt s ||
          (match s with
           | [] => false
           | _ :: st => likeMatchF fuel (c :: pt) st)
      else if c = bslChar then
        match pt with
        | [] => false
        | e :: pt2 =>
          match s with
          | [] => false
          | x :: st => (x == e) && likeMatchF fuel pt2 st
      else
        match s with
        | [] => false
        | x :: st => (if c = uscChar then true else x == c) && likeMatchF fuel pt st

/-- SQL `string LIKE pattern` (pattern first). -/
def likeMatch (p s : List Char) : Bool :=
  likeMatchF (p.length + s.length + 1) p s

/-- Model of SQL `hay ILIKE '%needle%'` (`field.ilike(f"%\x7bterm\x7d%")`
in the repository): case-insensitive `LIKE` against the needle wrapped in
`%`, with the needle's own `%`/`_`/`\` characters keeping their pattern
meaning because the code does not escape the interpolated term. -/
def ilikeContains (hay needle : String) : Bool :=
  likeMatch (pctChar :: ((strLower needle).data ++ [pctChar])) (strLower hay).data

/-- Word extraction of pg_trgm: maximal runs of alphanumeric characters
(the first argument accumulates the current word, reversed). -/
def splitWordsAux : List Char → List Char → List (List Char)
  | cur, [] => if cur.isEmpty then [] else [cur.reverse]
  | cur, c :: t =>
    if c.isAlphanum then splitWordsAux (c :: cur) t
    else if cur.isEmpty then splitWordsAux [] t else cur.reverse :: splitWordsAux [] t

/-- Words pg_trgm extracts from a string (after lowercasing). -/
def pgWords (s : String) : List (List Char) := splitWordsAux [] (strLower s).data

/-- All consecutive three-character windows of a character list. -/
def windows3 : List Char → List (List Char)
  | a :: b :: c :: t => [a, b, c] :: windows3 (b :: c :: t)
  | _ => []

/-- The pg_trgm padding: two spaces before the word, one after. -/
def padWord (w : List Char) : List Char :=
  Char.ofNat 32 :: Char.ofNat 32 :: (w ++ [Char.ofNat 32])

/-- The deduplicated trigram set pg_trgm associates with a string. -/
def trigrams (s : String) : List (List Char) :=
  (((pgWords s).map (fun w => windows3 (padWord w))).flatten).dedup

/-- Number of trigrams shared by the two strings. -/
def simCommon (a b : String) : Nat :=
  ((trigrams a).filter (fun t => t ∈ trigrams b)).length

/-- Size of the union of the two trigram sets. -/
def simDenom (a b : String) : Nat :=
  (trigrams a).length + (trigrams b).length - simCommon a b

/-- Model of pg_trgm's `similarity(a, b)`: shared trigrams over the union
of both trigram sets (0 when both sets are empty). -/
def pgSimilarity (a b : String) : Rat :=
  if simDenom a b = 0 then 0 else (simCommon a b : Rat) / (simDenom a b : Rat)

/-- Per-term match condition of `BusinessRepository.search`
(`business_repository.py:155-168`): `ILIKE '%term%'` on
name/city/state/categories, or trigram similarity above 0.3 on
name/city/categories. -/
def termCondition (b : Business) (t : String) : Bool :=
  ilikeContains b.name t || ilikeContains b.city t || ilikeContains b.state t ||
  ilikeContains b.categories t ||
  decide (pgSimilarity b.name t > 3 / 10) ||
  decide (pgSimilarity b.city t > 3 / 10) ||
  decide (pgSimilarity b.categories t > 3 / 10)

/-- The search `WHERE` clause (`business_repository.py:170-171`):
`or_` over the per-term conditions, literal `True` when there are no
terms. -/
def whereClause (q : String) (b : Business) : Bool :=
  if (splitTerms (cleanQuery q)).isEmpty then true
  else (splitTerms (cleanQuery q)).any (fun t => termCondition b t)

/-- The candidate set of the search query: all businesses passing the
`WHERE` clause. -/
def searchCandidates (db : DB) (q : String) : List Business :=
  db.businesses.filter (fun b => whereClause q b)

/-- SQL `CASE WHEN c1 THEN v1 WHEN c2 THEN v2 ... ELSE 0 END`:
first-match semantics. -/
def sqlCase : List (Bool × Rat) → Rat
  | [] => 0
  | (c, v) :: rest => if c then v else sqlCase rest

/-- SQL `COALESCE(x, 0)` over a nullable numeric value. -/
def sqlCoalesce (o : Option Rat) : Rat := o.getD 0

/-- The `similarity` column expression. It is null only when an input is
null; the searched columns are non-nullable, so the value is always
present. -/
def similarityCol (a b : String) : Option Rat := some (pgSimilarity a b)

/-- The relevance score of `BusinessRepository.search`
(`business_repository.py:175-195`). -/
def relevanceScore (b : Business) (qc : String) : Rat :=
  sqlCase [(strLower b.name == qc, 100), (strLower b.city == qc, 90),
    (strLower b.state == qc, 85)]
  + sqlCoalesce (similarityCol b.name qc) * 50
  + sqlCoalesce (similarityCol b.city qc) * 40
  + sqlCoalesce (similarityCol b.categories qc) * 30
  + sqlCase [(ilikeContains b.name qc, 20), (ilikeContains b.city qc, 15),
    (ilikeContains b.categories qc, 10)]

/-- Sort key of the search `ORDER BY`: relevance score, stars,
review count, all descending (hence the lexicographic key of the
*right* record is compared against the left one). -/
def searchKey (q : String) (b : Business) : Rat ×ₗ (Rat ×ₗ Nat) :=
  toLex (relevanceScore b (cleanQuery q), toLex (b.stars, b.review_count))

/-- Comparator realizing `ORDER BY relevance DESC, stars DESC,
review_count DESC`. -/
def searchLe (q : String) (a b : Business) : Bool :=
  decide (searchKey q b ≤ searchKey q a)

/-- Insert into a sorted list (helper of the `ORDER BY` model). -/
def insertLe {α : Type} (le : α → α → Bool) (a : α) : List α → List α
  | [] => [a]
  | b :: l => if le a b then a :: b :: l else b :: insertLe le a l

/-- Model of SQL `ORDER BY`: insertion sort by the given comparator
(a sorted permutation of the input; SQL fixes nothing more). -/
def orderBy {α : Type} (le : α → α → Bool) (l : List α) : List α :=
  l.foldr (insertLe le) []

/-- `BusinessRepository.search` (`business_repository.py:118-210`):
filter, order by relevance, then offset/limit. -/
def search (db : DB) (q : String) (skip limit : Nat) : List Business :=
  ((orderBy (searchLe q) (searchCandidates db q)).drop skip).take limit

/-- Sort key of the listing order: stars then review count, descending. -/
def rankKey (b : Business) : Rat ×ₗ Nat := toLex (b.stars, b.review_count)

/-- Comparator realizing `ORDER BY stars DESC, review_count DESC`. -/
def rankLe (a b : Business) : Bool := decide (rankKey b ≤ rankKey a)

/-- Inclusive bounding-box test of `BusinessRepository.get_in_viewport`
(`business_repository.py:101-110`). -/
def inViewport (south north west east : Rat) (b : Business) : Bool :=
  decide (b.latitude ≥ south) && decide (b.latitude ≤ north) &&
  decide (b.longitude ≥ west) && decide (b.longitude ≤ east)

/-- `BusinessRepository.get_in_viewport` (`business_repository.py:80-116`). -/
def get_in_viewport (db : DB) (south north west east : Rat) (lim : Nat) : List Business :=
  (orderBy rankLe (db.businesses.filter (inViewport south north west east))).take lim

/-- Failure signals of the service layer: `HTTPException(400)`,
`HTTPException(404)` and `ValueError`. -/
inductive AppError where
  | badRequest (msg : String)
  | notFound (msg : String)
  | valueError (msg : String)
  deriving DecidableEq, Repr

/-- `BusinessService.get_businesses_in_viewport`
(`business_service.py:79-123`): bound validation, then the repository
query. -/
def get_businesses_in_viewport (db : DB) (south north west east : Rat) (lim : Nat) :
    Except AppError (List Business) :=
  if south ≥ north then
    .error (.badRequest "South latitude must be less than north latitude")
  else if west ≥ east then
    .error (.badRequest "West longitude must be less than east longitude")
  else
    .ok (get_in_viewport db south north west east lim)

/-- Scope of a timeline aggregation: one business, all businesses of a
(city, state) pair, or all businesses of a state. -/
inductive Scope where
  | business (id : String)
  | city (c s : String)
  | state (s : String)
  deriving DecidableEq, Repr

/-- The review rows selected by a scope. The business scope is a plain
`WHERE`; the city/state scopes mirror the SQL inner join
`JOIN businesses ON reviews.business_id = businesses.business_id` plus
the region `WHERE`: one row per matching (review, business) pair, the
review component kept (only review columns are aggregated). -/
def scopedReviews (db : DB) : Scope → List Review
  | .business id => db.reviews.filter (fun r => r.business_id == id)
  | .city c s =>
    (db.reviews.map (fun r =>
      (db.businesses.filter (fun b =>
        r.business_id == b.business_id && b.city == c && b.state == s)).map
          (fun _ => r))).flatten
  | .state s =>
    (db.reviews.map (fun r =>
      (db.businesses.filter (fun b =>
        r.business_id == b.business_id && b.state == s)).map
          (fun _ => r))).flatten

/-- The optional inclusive date-window filter
(`Review.date >= start_date`, `Review.date <= end_date`). -/
def inWindow (sd ed : Option Date) (r : Review) : Bool :=
  (match sd with
   | none => true
   | some d => decide (r.date ≥ d)) &&
  (match ed with
   | none => true
   | some d => decide (r.date ≤ d))

/-- The rows reaching the `GROUP BY`: scope filter plus window filter. -/
def windowedReviews (db : DB) (scope : Scope) (sd ed : Option Date) : List Review :=
  (scopedReviews db scope).filter (inWindow sd ed)

/-- Insert a date into an ascending duplicate-free list, keeping it
ascending and duplicate-free. -/
def insertAsc (d : Date) : List Date → List Date
  | [] => [d]
  | x :: xs => if d = x then x :: xs else if d < x then d :: x :: xs else x :: insertAsc d xs

/-- The distinct `GROUP BY` keys in ascending order (the effect of
`GROUP BY period_col ORDER BY period_col`). -/
def bucketStarts (p : Period) (rs : List Review) : List Date :=
  rs.foldr (fun r acc => insertAsc (dateTrunc p r.date) acc) []

/-- The rows belonging to one bucket. -/
def bucketGroup (p : Period) (rs : List Review) (k : Date) : List Review :=
  rs.filter (fun r => dateTrunc p r.date == k)

/-- The grouped rows of a timeline query, in ascending bucket order. -/
def timelineGroups (db : DB) (scope : Scope) (p : Period) (sd ed : Option Date) :
    List (Date × List Review) :=
  (bucketStarts p (windowedReviews db scope sd ed)).map
    (fun k => (k, bucketGroup p (windowedReviews db scope sd ed) k))

/-- SQL `AVG` over the (always nonempty) values of one group. The
Python shaping `float(x) if x else 0.0` is value-preserving on a
nonempty group, so the average itself is the modeled value. -/
def ratAvg (l : List Rat) : Rat := l.sum / (l.length : Rat)

/-- Output row of `get_business_ratings_over_time`
(`review_repository.py:131-138`). -/
structure RatingPoint where
  period_start : String
  avg_rating : Rat
  review_count : Nat
  deriving DecidableEq, Repr

/-- Output row of the city/state ratings timelines
(`review_repository.py:248-256`). -/
structure RegionRatingPoint where
  period_start : String
  avg_rating : Rat
  review_count : Nat
  business_count : Nat
  deriving DecidableEq, Repr

/-- Output row of `get_business_sentiment_over_time`
(`review_repository.py:185-193`). -/
structure SentimentPoint where
  period_start : String
  avg_sentiment_score : Rat
  avg_sentiment_expected : Rat
  review_count : Nat
  deriving DecidableEq, Repr

/-- Output row of the city/state sentiment timelines
(`review_repository.py:368-377`). -/
structure RegionSentimentPoint where
  period_start : String
  avg_sentiment_score : Rat
  avg_sentiment_expected : Rat
  review_count : Nat
  business_count : Nat
  deriving DecidableEq, Repr

/-- Shape one group into a business ratings row. -/
def mkRatingPoint (kg : Date × List Review) : RatingPoint :=
  ⟨timestampIso kg.1, ratAvg (kg.2.map (fun r => r.stars)), kg.2.length⟩

/-- Shape one group into a region ratings row
(`COUNT(DISTINCT reviews.business_id)` is the distinct count of the
group's business ids). -/
def mkRegionRatingPoint (kg : Date × List Review) : RegionRatingPoint :=
  ⟨timestampIso kg.1, ratAvg (kg.2.map (fun r => r.stars)), kg.2.length,
    ((kg.2.map (fun r => r.business_id)).dedup).length⟩

/-- Shape one group into a business sentiment row. -/
def mkSentimentPoint (kg : Date × List Review) : SentimentPoint :=
  ⟨timestampIso kg.1, ratAvg (kg.2.map (fun r => r.sentiment_score_prob_diff)),
    ratAvg (kg.2.map (fun r => r.sentiment_score_expected)), kg.2.length⟩

/-- Shape one group into a region sentiment row. -/
def mkRegionSentimentPoint (kg : Date × List Review) : RegionSentimentPoint :=
  ⟨timestampIso kg.1, ratAvg (kg.2.map (fun r => r.sentiment_score_prob_diff)),
    ratAvg (kg.2.map (fun r => r.sentiment_score_expected)), kg.2.length,
    ((kg.2.map (fun r => r.business_id)).dedup).length⟩

/-- The period strings accepted by `_get_date_trunc_expression` and
`_validate_period`. -/
def parsePeriod : String → Option Period
  | "day" => some .day
  | "week" => some .week
  | "month" => some .month
  | "year" => some .year
  | _ => none

/-- `ReviewRepository.get_business_ratings_over_time`
(`review_repository.py:87-138`); an invalid period raises `ValueError`
in `_get_date_trunc_expression`. -/
def get_business_ratings_over_time (db : DB) (id : String) (p : String)
    (sd ed : Option Date) : Except AppError (List RatingPoint) :=
  match parsePeriod p with
  | none => .error (.valueError ("Invalid period: " ++ p))
  | some pp => .ok ((timelineGroups db (.business id) pp sd ed).map mkRatingPoint)

/-- `ReviewRepository.get_business_sentiment_over_time`
(`review_repository.py:140-193`). -/
def get_business_sentiment_over_time (db : DB) (id : String) (p : String)
    (sd ed : Option Date) : Except AppError (List SentimentPoint) :=
  match parsePeriod p with
  | none => .error (.valueError ("Invalid period: " ++ p))
  | some pp => .ok ((timelineGroups db (.business id) pp sd ed).map mkSentimentPoint)

/-- `ReviewRepository.get_city_ratings_over_time`
(`review_repository.py:195-256`). -/
def get_city_ratings_over_time (db : DB) (c s : String) (p : String)
    (sd ed : Option Date) : Except AppError (List RegionRatingPoint) :=
  match parsePeriod p with
  | none => .error (.valueError ("Invalid period: " ++ p))
  | some pp => .ok ((timelineGroups db (.city c s) pp sd ed).map mkRegionRatingPoint)

/-- `ReviewRepository.get_state_ratings_over_time`
(`review_repository.py:258-312`). -/
def get_state_ratings_over_time (db : DB) (s : String) (p : String)
    (sd ed : Option Date) : Except AppError (List RegionRatingPoint) :=
  match parsePeriod p with
  | none => .error (.valueError ("Invalid period: " ++ p))
  | some pp => .ok ((timelineGroups db (.state s) pp sd ed).map mkRegionRatingPoint)

/-- SQL row of the ratings comparison queries before splitting
(`review_repository.py:457-494`): grouped aggregate plus the literal
`business_count` / `data_type` columns. -/
structure CmpRatingRow where
  period_start : Date
  avg_rating : Rat
  review_count : Nat
  business_count : Nat
  data_type : String
  deriving DecidableEq, Repr

/-- SQL row of the sentiment comparison queries before splitting
(`review_repository.py:601-637`). -/
structure CmpSentRow where
  period_start : Date
  avg_sentiment_score : Rat
  avg_sentiment_expected : Rat
  review_count : Nat
  business_count : Nat
  data_type : String
  deriving DecidableEq, Repr

/-- The business-side subquery of the ratings comparisons: the business
aggregation with literal `business_count = 1` and tag `'business'`. -/
def bizCmpRatingRows (db : DB) (id : String) (p : Period) (sd ed : Option Date) :
    List CmpRatingRow :=
  (timelineGroups db (.business id) p sd ed).map (fun kg =>
    ⟨kg.1, ratAvg (kg.2.map (fun r => r.stars)), kg.2.length, 1, "business"⟩)

/-- The peer-side subquery of the ratings comparisons: region-scoped
aggregation with a distinct-business count and the given tag. -/
def peerCmpRatingRows (db : DB) (sc : Scope) (tg : String) (p : Period)
    (sd ed : Option Date) : List CmpRatingRow :=
  (timelineGroups db sc p sd ed).map (fun kg =>
    ⟨kg.1, ratAvg (kg.2.map (fun r => r.stars)), kg.2.length,
      ((kg.2.map (fun r => r.business_id)).dedup).length, tg⟩)

/-- The city-side subquery of the city ratings comparison, tag `'city'`. -/
def cityCmpRatingRows (db : DB) (c s : String) (p : Period) (sd ed : Option Date) :
    List CmpRatingRow :=
  peerCmpRatingRows db (.city c s) "city" p sd ed

/-- The state-side subquery of the state ratings comparison, tag `'state'`. -/
def stateCmpRatingRows (db : DB) (s : String) (p : Period) (sd ed : Option Date) :
    List CmpRatingRow :=
  peerCmpRatingRows db (.state s) "state" p sd ed

/-- The business-side subquery of the sentiment comparisons. -/
def bizCmpSentRows (db : DB) (id : String) (p : Period) (sd ed : Option Date) :
    List CmpSentRow :=
  (timelineGroups db (.business id) p sd ed).map (fun kg =>
    ⟨kg.1, ratAvg (kg.2.map (fun r => r.sentiment_score_prob_diff)),
      ratAvg (kg.2.map (fun r => r.sentiment_score_expected)), kg.2.length, 1, "business"⟩)

/-- The peer-side subquery of the sentiment comparisons. -/
def peerCmpSentRows (db : DB) (sc : Scope) (tg : String) (p : Period)
    (sd ed : Option Date) : List CmpSentRow :=
  (timelineGroups db sc p sd ed).map (fun kg =>
    ⟨kg.1, ratAvg (kg.2.map (fun r => r.sentiment_score_prob_diff)),
      ratAvg (kg.2.map (fun r => r.sentiment_score_expected)), kg.2.length,
      ((kg.2.map (fun r => r.business_id)).dedup).length, tg⟩)

/-- The city-side subquery of the city sentiment comparison. -/
def cityCmpSentRows (db : DB) (c s : String) (p : Period) (sd ed : Option Date) :
    List CmpSentRow :=
  peerCmpSentRows db (.city c s) "city" p sd ed

/-- The state-side subquery of the state sentiment comparison. -/
def stateCmpSentRows (db : DB) (s : String) (p : Period) (sd ed : Option Date) :
    List CmpSentRow :=
  peerCmpSentRows db (.state s) "state" p sd ed

/-- The Python `data_point` shaping of a ratings comparison row: the
`data_type` tag is dropped, the bucket is isoformatted
(`review_repository.py:505-510`). -/
def cmpRatingOut (r : CmpRatingRow) : RegionRatingPoint :=
  ⟨timestampIso r.period_start, r.avg_rating, r.review_count, r.business_count⟩

/-- The Python `data_point` shaping of a sentiment comparison row. -/
def cmpSentOut (r : CmpSentRow) : RegionSentimentPoint :=
  ⟨timestampIso r.period_start, r.avg_sentiment_score, r.avg_sentiment_expected,
    r.review_count, r.business_count⟩

/-- The Python split loop (`review_repository.py:504-515`): rows tagged
`'business'` in order, then the remaining rows in order. -/
def splitRatingRows (rows : List CmpRatingRow) :
    List RegionRatingPoint × List RegionRatingPoint :=
  ((rows.filter (fun r => r.data_type == "business")).map cmpRatingOut,
   (rows.filter (fun r => !(r.data_type == "business"))).map cmpRatingOut)

/-- The split loop of the sentiment comparisons. -/
def splitSentRows (rows : List CmpSentRow) :
    List RegionSentimentPoint × List RegionSentimentPoint :=
  ((rows.filter (fun r => r.data_type == "business")).map cmpSentOut,
   (rows.filter (fun r => !(r.data_type == "business"))).map cmpSentOut)

/-- `ORDER BY period_start` of the combined comparison query. -/
def cmpRatingLe (a b : CmpRatingRow) : Bool := decide (a.period_start ≤ b.period_start)

/-- `ORDER BY period_start` of the combined sentiment comparison query. -/
def cmpSentLe (a b : CmpSentRow) : Bool := decide (a.period_start ≤ b.period_start)

/-- `ReviewRepository.get_business_and_city_ratings_comparison`
(`review_repository.py:438-517`): `UNION ALL`, order by `period_start`,
split by `data_type`. The caller (`AnalyticsService`) validates the
period before reaching this query. -/
def get_business_and_city_ratings_comparison (db : DB) (id c s : String)
    (p : Period) (sd ed : Option Date) :
    List RegionRatingPoint × List RegionRatingPoint :=
  splitRatingRows (orderBy cmpRatingLe
    (bizCmpRatingRows db id p sd ed ++ cityCmpRatingRows db c s p sd ed))

/-- `ReviewRepository.get_business_and_state_ratings_comparison`
(`review_repository.py:519-586`). -/
def get_business_and_state_ratings_comparison (db : DB) (id s : String)
    (p : Period) (sd ed : Option Date) :
    List RegionRatingPoint × List RegionRatingPoint :=
  splitRatingRows (orderBy cmpRatingLe
    (bizCmpRatingRows db id p sd ed ++ stateCmpRatingRows db s p sd ed))

/-- `ReviewRepository.get_business_and_city_sentiment_comparison`
(`review_repository.py:588-658`). -/
def get_business_and_city_sentiment_comparison (db : DB) (id c s : String)
    (p : Period) (sd ed : Option Date) :
    List RegionSentimentPoint × List RegionSentimentPoint :=
  splitSentRows (orderBy cmpSentLe
    (bizCmpSentRows db id p sd ed ++ cityCmpSentRows db c s p sd ed))

/-- `ReviewRepository.get_business_and_state_sentiment_comparison`
(`review_repository.py:660-729`). -/
def get_business_and_state_sentiment_comparison (db : DB) (id s : String)
    (p : Period) (sd ed : Option Date) :
    List RegionSentimentPoint × List RegionSentimentPoint :=
  splitSentRows (orderBy cmpSentLe
    (bizCmpSentRows db id p sd ed ++ stateCmpSentRows db s p sd ed))

/-- The period set of `AnalyticsService._validate_period`. -/
def validPeriods : List String := ["day", "week", "month", "year"]

/-- The metric set of `AnalyticsService._validate_metric`. -/
def validMetrics : List String := ["rating", "sentiment"]

/-- `AnalyticsService._validate_period` (`analytics_service.py:34-49`). -/
def validatePeriod (p : String) : Except AppError Unit :=
  if p ∈ validPeriods then .ok ()
  else .error (.badRequest ("Invalid period " ++ p))

/-- `AnalyticsService._validate_metric` (`analytics_service.py:51-66`). -/
def validateMetric (m : String) : Except AppError Unit :=
  if m ∈ validMetrics then .ok ()
  else .error (.badRequest ("Invalid metric " ++ m))

/-- `BusinessRepository.get_by_id` (`business_repository.py:28-41`). -/
def get_by_id (db : DB) (id : String) : Option Business :=
  db.businesses.find? (fun b => b.business_id == id)

/-- Response envelope of the business timelines
(`analytics_service.py:108-116`). -/
structure BizTimelineResponse (α : Type) where
  business_id : String
  business_name : String
  period : String
  metric : String
  start_date : Option String
  end_date : Option String
  data : List α
  deriving DecidableEq, Repr

/-- Response envelope of the city timeline
(`analytics_service.py:337-345`). -/
structure CityTimelineResponse where
  city : String
  state : String
  period : String
  metric : String
  start_date : Option String
  end_date : Option String
  data : List RegionRatingPoint
  deriving DecidableEq, Repr

/-- Response envelope of the state timeline
(`analytics_service.py:377-384`). -/
structure StateTimelineResponse where
  state : String
  period : String
  metric : String
  start_date : Option String
  end_date : Option String
  data : List RegionRatingPoint
  deriving DecidableEq, Repr

/-- The two possible payload shapes of a comparison response, chosen by
the metric. -/
inductive CmpSeries where
  | rating (business_data : List RegionRatingPoint) (peer : List RegionRatingPoint)
  | sentiment (business_data : List RegionSentimentPoint) (peer : List RegionSentimentPoint)
  deriving DecidableEq, Repr

/-- Response envelope of the city comparison
(`analytics_service.py:225-236`). -/
structure CityCmpResponse where
  business_id : String
  business_name : String
  city : String
  state : String
  period : String
  metric : String
  start_date : Option String
  end_date : Option String
  series : CmpSeries
  deriving DecidableEq, Repr

/-- Response envelope of the state comparison
(`analytics_service.py:292-302`). -/
structure StateCmpResponse where
  business_id : String
  business_name : String
  state : String
  period : String
  metric : String
  start_date : Option String
  end_date : Option String
  series : CmpSeries
  deriving DecidableEq, Repr

/-- `AnalyticsService.get_business_ratings_timeline`
(`analytics_service.py:68-116`): validate the period, check the business
exists, then aggregate. -/
def svcBusinessRatingsTimeline (db : DB) (id : String) (p : String)
    (sd ed : Option Date) : Except AppError (BizTimelineResponse RatingPoint) :=
  match validatePeriod p with
  | .error e => .error e
  | .ok _ =>
    match get_by_id db id with
    | none => .error (.notFound ("Business with ID " ++ id ++ " not found"))
    | some b =>
      match get_business_ratings_over_time db id p sd ed with
      | .error e => .error e
      | .ok data =>
        .ok ⟨id, b.name, p, "rating", sd.map Date.isoformat, ed.map Date.isoformat, data⟩

/-- `AnalyticsService.get_business_sentiment_timeline`
(`analytics_service.py:118-167`). -/
def svcBusinessSentimentTimeline (db : DB) (id : String) (p : String)
    (sd ed : Option Date) : Except AppError (BizTimelineResponse SentimentPoint) :=
  match validatePeriod p with
  | .error e => .error e
  | .ok _ =>
    match get_by_id db id with
    | none => .error (.notFound ("Business with ID " ++ id ++ " not found"))
    | some b =>
      match get_business_sentiment_over_time db id p sd ed with
      | .error e => .error e
      | .ok data =>
        .ok ⟨id, b.name, p, "sentiment", sd.map Date.isoformat, ed.map Date.isoformat, data⟩

/-- `AnalyticsService.get_city_ratings_timeline`
(`analytics_service.py:304-345`): validates the period and aggregates;
there is no existence check of the (city, state) pair. -/
def svcCityRatingsTimeline (db : DB) (c s : String) (p : String)
    (sd ed : Option Date) : Except AppError CityTimelineResponse :=
  match validatePeriod p with
  | .error e => .error e
  | .ok _ =>
    match get_city_ratings_over_time db c s p sd ed with
    | .error e => .error e
    | .ok data =>
      .ok ⟨c, s, p, "rating", sd.map Date.isoformat, ed.map Date.isoformat, data⟩

/-- `AnalyticsService.get_state_ratings_timeline`
(`analytics_service.py:347-384`): validates the period and aggregates;
there is no existence check of the state. -/
def svcStateRatingsTimeline (db : DB) (s : String) (p : String)
    (sd ed : Option Date) : Except AppError StateTimelineResponse :=
  match validatePeriod p with
  | .error e => .error e
  | .ok _ =>
    match get_state_ratings_over_time db s p sd ed with
    | .error e => .error e
    | .ok data =>
      .ok ⟨s, p, "rating", sd.map Date.isoformat, ed.map Date.isoformat, data⟩

/-- `AnalyticsService.get_business_timeline_with_city_comparison`
(`analytics_service.py:169-236`): validate period and metric, resolve
the business (404 when unknown), then run the paired query for the
business's own city/state. The inner `parsePeriod` cannot fail after
validation; its error branch mirrors the storage layer rejecting an
invalid `date_trunc` field. -/
def svcCityComparison (db : DB) (id metric p : String) (sd ed : Option Date) :
    Except AppError CityCmpResponse :=
  match validatePeriod p with
  | .error e => .error e
  | .ok _ =>
    match validateMetric metric with
    | .error e => .error e
    | .ok _ =>
      match get_by_id db id with
      | none => .error (.notFound ("Business with ID " ++ id ++ " not found"))
      | some b =>
        match parsePeriod p with
        | none => .error (.valueError ("Invalid period: " ++ p))
        | some pp =>
          if metric == "rating" then
            let r := get_business_and_city_ratings_comparison db id b.city b.state pp sd ed
            .ok ⟨id, b.name, b.city, b.state, p, metric, sd.map Date.isoformat,
              ed.map Date.isoformat, .rating r.1 r.2⟩
          else
            let r := get_business_and_city_sentiment_comparison db id b.city b.state pp sd ed
            .ok ⟨id, b.name, b.city, b.state, p, metric, sd.map Date.isoformat,
              ed.map Date.isoformat, .sentiment r.1 r.2⟩

/-- `AnalyticsService.get_business_timeline_with_state_comparison`
(`analytics_service.py:238-302`). -/
def svcStateComparison (db : DB) (id metric p : String) (sd ed : Option Date) :
    Except AppError StateCmpResponse :=
  match validatePeriod p with
  | .error e => .error e
  | .ok _ =>
    match validateMetric metric with
    | .error e => .error e
    | .ok _ =>
      match get_by_id db id with
      | none => .error (.notFound ("Business with ID " ++ id ++ " not found"))
      | some b =>
        match parsePeriod p with
        | none => .error (.valueError ("Invalid period: " ++ p))
        | some pp =>
          if metric == "rating" then
            let r := get_business_and_state_ratings_comparison db id b.state pp sd ed
            .ok ⟨id, b.name, b.state, p, metric, sd.map Date.isoformat,
              ed.map Date.isoformat, .rating r.1 r.2⟩
          else
            let r := get_business_and_state_sentiment_comparison db id b.state pp sd ed
            .ok ⟨id, b.name, b.state, p, metric, sd.map Date.isoformat,
              ed.map Date.isoformat, .sentiment r.1 r.2⟩

/-- `ReviewRepository.get_city_sentiment_over_time`
(`review_repository.py:314-377`). -/
def get_city_sentiment_over_time (db : DB) (c s : String) (p : String)
    (sd ed : Option Date) : Except AppError (List RegionSentimentPoint) :=
  match parsePeriod p with
  | none => .error (.valueError ("Invalid period: " ++ p))
  | some pp => .ok ((timelineGroups db (.city c s) pp sd ed).map mkRegionSentimentPoint)

/-- `ReviewRepository.get_state_sentiment_over_time`
(`review_repository.py:379-435`). -/
def get_state_sentiment_over_time (db : DB) (s : String) (p : String)
    (sd ed : Option Date) : Except AppError (List RegionSentimentPoint) :=
  match parsePeriod p with
  | none => .error (.valueError ("Invalid period: " ++ p))
  | some pp => .ok ((timelineGroups db (.state s) pp sd ed).map mkRegionSentimentPoint)

/-- Primary-key invariant of the `businesses` table: `business_id` values
are pairwise distinct. -/
def PKNodup (db : DB) : Prop :=
  (db.businesses.map (fun b => b.business_id)).Nodup

/-- Whether a stored review belongs to a scope, phrased directly over the
tables (a review is in a city/state scope when some stored business with
its id lies in the region). -/
def scopePred (db : DB) : Scope → Review → Bool
  | .business id, r => r.business_id == id
  | .city c s, r =>
    db.businesses.any (fun b => r.business_id == b.business_id && b.city == c && b.state == s)
  | .state s, r =>
    db.businesses.any (fun b => r.business_id == b.business_id && b.state == s)

/-- The number of stored reviews of a scope whose date falls in the
bucket `k` and inside the optional window: the reference count a bucket's
`review_count` must equal. -/
def countMatching (db : DB) (scope : Scope) (p : Period) (sd ed : Option Date)
    (k : Date) : Nat :=
  (db.reviews.filter (fun r =>
    scopePred db scope r && inWindow sd ed r && (dateTrunc p r.date == k))).length

/-- Claim C1's per-term test, as the spec words it: for any of the four
fields name/city/state/categories, substring containment or trigram
similarity strictly above 0.3. -/
def claimC1TermHit (b : Business) (t : String) : Bool :=
  [b.name, b.city, b.state, b.categories].any
    (fun f => substrContains f t || decide (pgSimilarity f t > 3 / 10))

/-- Claim C1's matching predicate, as the spec words it: at least one
whitespace-split term of the cleaned query satisfies `claimC1TermHit`. -/
def claimC1Matches (q : String) (b : Business) : Bool :=
  (splitTerms (cleanQuery q)).any (fun t => claimC1TermHit b t)

/-- The amended per-term test matching the code: `ILIKE '%term%'` on all
four fields (which is case-insensitive substring containment whenever the
term has no `%`/`_`/`\` characters), similarity only on
name/city/categories. -/
def amendedC1TermHit (b : Business) (t : String) : Bool :=
  ([b.name, b.city, b.state, b.categories].any (fun f => ilikeContains f t)) ||
  ([b.name, b.city, b.categories].any (fun f => decide (pgSimilarity f t > 3 / 10)))

/-- The amended matching predicate of claim C1. -/
def amendedC1Matches (q : String) (b : Business) : Bool :=
  (splitTerms (cleanQuery q)).any (fun t => amendedC1TermHit b t)

/-- Claim C3's relevance formula, as the spec words it: a first-match
exact bonus chain, three similarity terms (0 when the similarity value
is null), and a first-match substring bonus chain. -/
def specRelevance (b : Business) (qc : String) : Rat :=
  (if strLower b.name = qc then 100
   else if strLower b.city = qc then 90
   else if strLower b.state = qc then 85
   else 0)
  + (match similarityCol b.name qc with
     | none => 0
     | some v => v * 50)
  + (match similarityCol b.city qc with
     | none => 0
     | some v => v * 40)
  + (match similarityCol b.categories qc with
     | none => 0
     | some v => v * 30)
  + (if substrContains b.name qc then 20
     else if substrContains b.city qc then 15
     else if substrContains b.categories qc then 10
     else 0)

/-- Claim C3's relevance formula amended to the code's substring test:
identical to `specRelevance` except that the bonus chain reads "contains"
as the SQL pattern match `ILIKE` applies to the unescaped query — plain
case-insensitive containment exactly when the query has no `%`/`_`/`\`
characters. -/
def amendedSpecRelevance (b : Business) (qc : String) : Rat :=
  (if strLower b.name = qc then 100
   else if strLower b.city = qc then 90
   else if strLower b.state = qc then 85
   else 0)
  + (match similarityCol b.name qc with
     | none => 0
     | some v => v * 50)
  + (match similarityCol b.city qc with
     | none => 0
     | some v => v * 40)
  + (match similarityCol b.categories qc with
     | none => 0
     | some v => v * 30)
  + (if ilikeContains b.name qc then 20
     else if ilikeContains b.city qc then 15
     else if ilikeContains b.categories qc then 10
     else 0)

/-- Forget the synthetic `business_count` of a comparison row, giving the
shape of the business-scoped timeline of 4.4. -/
def regionToRating (x : RegionRatingPoint) : RatingPoint :=
  ⟨x.period_start, x.avg_rating, x.review_count⟩

/-- Forget the synthetic `business_count` of a sentiment comparison row. -/
def regionToSent (x : RegionSentimentPoint) : SentimentPoint :=
  ⟨x.period_start, x.avg_sentiment_score, x.avg_sentiment_expected, x.review_count⟩

/-- Review literal with the fields irrelevant to a test zeroed. -/
def rev0 (id bid : String) (stars : Rat) (d : Date) : Review :=
  ⟨id, bid, "", stars, d, "", 0, 0, 0, "", 0, 0, 0, 0, 0, 0, 0⟩

/-- Business literal with the fields irrelevant to a test zeroed. -/
def biz0 (id nm c st : String) : Business :=
  ⟨id, nm, c, st, 0, 0, 0, 0, 1, 0, ""⟩

/-- The data store of the spec's worked example: business B1 with two
reviews dated 2023-01-10 (4 stars) and 2023-01-20 (5 stars). -/
def db8 : DB :=
  ⟨[biz0 "B1" "Joe" "Philadelphia" "PA"],
   [rev0 "r1" "B1" 4 ⟨2023, 1, 10⟩, rev0 "r2" "B1" 5 ⟨2023, 1, 20⟩]⟩

/-- The business refuting claim C1 as stated: its `state` is "AB", whose
trigram similarity with the query "abc" is 2/5 > 0.3, while no field
contains "abc" and the name/city/categories similarities are 0. -/
def cexC1Biz : Business := biz0 "b1" "zz" "qq" "AB"

/-- One-business store for the C1 counterexample. -/
def cexC1DB : DB := ⟨[cexC1Biz], []⟩

/-- The business refuting claim C3 as stated, against the cleaned query
"a_c": its name "abc" matches `ILIKE` pattern `%a_c%` (`_` is a
single-character wildcard), so the code awards the 20-point bonus, while
"abc" does not literally contain "a_c", so the claim's formula awards no
bonus. -/
def cexC3Biz : Business := biz0 "b3" "abc" "qq" "ZZ"

example : dateTrunc .month ⟨2023, 1, 10⟩ = ⟨2023, 1, 1⟩ := by decide

example : dateTrunc .week ⟨2023, 1, 10⟩ = ⟨2023, 1, 9⟩ := by decide

example : dateTrunc .week ⟨2023, 1, 9⟩ = ⟨2023, 1, 9⟩ := by decide

example : dateTrunc .week ⟨2023, 1, 8⟩ = ⟨2023, 1, 2⟩ := by decide

example : dateTrunc .week ⟨2024, 3, 1⟩ = ⟨2024, 2, 26⟩ := by decide

example : (⟨2023, 1, 1⟩ : Date).isoformat = "2023-01-01" := by decide

example : (⟨2022, 12, 31⟩ : Date) < ⟨2023, 1, 1⟩ := by decide

theorem toNat_ofNatAux (n : Nat) (h : n.isValidChar) :
    (Char.ofNatAux n h).toNat = n := rfl

theorem charLower_guard (c : Char) :
    ¬(65 ≤ (charLower c).toNat ∧ (charLower c).toNat ≤ 90) := by
  unfold charLower
  by_cases h : 65 ≤ c.toNat ∧ c.toNat ≤ 90
  · rw [dif_pos h, toNat_ofNatAux]
    omega
  · rw [dif_neg h]
    exact h

theorem charLower_idem (c : Char) : charLower (charLower c) = charLower c :=
  dif_neg (charLower_guard c)

theorem strLower_idem (s : String) : strLower (strLower s) = strLower s := by
  cases s
  simp [strLower, List.map_map, Function.comp_def, charLower_idem]

theorem isPrefixOf_self {α : Type} [BEq α] [LawfulBEq α] (l : List α) :
    l.isPrefixOf l = true := by
  induction l with
  | nil => rfl
  | cons a t ih => simp [List.isPrefixOf, ih]

theorem listContains_self (l : List Char) : listContains l l = true := by
  cases l with
  | nil => rfl
  | cons c t => simp [listContains, isPrefixOf_self]

example : pgSimilarity "ab" "ab" = 1 := by
  have h1 : simCommon "ab" "ab" = 3 := by decide
  have h2 : simDenom "ab" "ab" = 3 := by decide
  rw [pgSimilarity, h1, h2]
  norm_num

example : pgSimilarity "AB" "abc" = 2 / 5 := by
  have h1 : simCommon "AB" "abc" = 2 := by decide
  have h2 : simDenom "AB" "abc" = 5 := by decide
  rw [pgSimilarity, h1, h2]
  norm_num

example : pgSimilarity "zz" "abc" = 0 := by
  have h1 : simCommon "zz" "abc" = 0 := by decide
  have h2 : simDenom "zz" "abc" = 7 := by decide
  rw [pgSimilarity, h1, h2]
  norm_num

example : cleanQuery "  Philadelphia Italian " = "philadelphia italian" := by
  decide

example : splitTerms "philadelphia italian" = ["philadelphia", "italian"] := by
  decide

example : splitTerms "" = [] := by
  rfl

example : substrContains "Philadelphia" "PHIA" = true := by decide

example : substrContains "ab" "abc" = false := by decide

example : ilikeContains "abc" "a_c" = true := by decide

example : ilikeContains "abc" "abc" = true := by decide

example : ilikeContains "Joes Pizza" "PIZZA" = true := by decide

example : ilikeContains "zz" "abc" = false := by decide

example : ilikeContains "axyzc" "a%c" = true := by decide

example : ilikeContains "a_c" "a\\_c" = true := by decide

example : ilikeContains "abc" "a\\_c" = false := by decide

/-- A pattern that is a single `%` matches every string (given fuel). -/
theorem likeMatchF_pct_all (s : List Char) :
    ∀ fuel, s.length + 1 < fuel → likeMatchF fuel [pctChar] s = true := by
  induction s with
  | nil =>
    intro fuel h
    obtain ⟨f, rfl⟩ : ∃ f, fuel = f + 2 := ⟨fuel - 2, by omega⟩
    simp [likeMatchF]
  | cons c t ih =>
    intro fuel h
    obtain ⟨f, rfl⟩ : ∃ f, fuel = f + 1 := ⟨fuel - 1, by omega⟩
    have h2 : likeMatchF f [pctChar] t = true := ih f (by simp at h; omega)
    simp [likeMatchF, h2]

/-- Against a literal pattern (no wildcard or escape characters) followed
by a single `%`, `LIKE` matching means the literal is a prefix of the
string. -/
theorem likeMatchF_lit_prefix (w : List Char)
    (hw : ∀ c ∈ w, c ≠ pctChar ∧ c ≠ uscChar ∧ c ≠ bslChar) :
    ∀ s fuel, w.length + s.length + 1 < fuel →
      (likeMatchF fuel (w ++ [pctChar]) s = true ↔ w <+: s) := by
  induction w with
  | nil =>
    intro s fuel h
    simp only [List.nil_append]
    rw [likeMatchF_pct_all s fuel (by simpa using h)]
    simp
  | cons c w2 ih =>
    intro s fuel h
    have hc := hw c (List.mem_cons_self c w2)
    obtain ⟨f, rfl⟩ : ∃ f, fuel = f + 1 := ⟨fuel - 1, by omega⟩
    cases s with
    | nil =>
      simp [likeMatchF, hc.1, hc.2.2]
    | cons x st =>
      have hrec := ih (fun c2 hc2 => hw c2 (List.mem_cons_of_mem c hc2)) st f
        (by simp at h ⊢; omega)
      simp only [List.cons_append, likeMatchF, hc.1, hc.2.1, hc.2.2, if_false,
        if_neg hc.1, if_neg hc.2.2, if_neg hc.2.1, Bool.and_eq_true, beq_iff_eq,
        List.cons_prefix_cons, hrec]
      constructor
      · rintro ⟨h1, h2⟩
        exact ⟨h1.symm, h2⟩
      · rintro ⟨h1, h2⟩
        exact ⟨h1.symm, h2⟩

/-- Against `%` + literal + `%`, `LIKE` matching means the literal is a
prefix of some suffix of the string. -/
theorem likeMatchF_pct_prefix (w : List Char)
    (hw : ∀ c ∈ w, c ≠ pctChar ∧ c ≠ uscChar ∧ c ≠ bslChar) :
    ∀ s fuel, w.length + s.length + 2 < fuel →
      (likeMatchF fuel (pctChar :: (w ++ [pctChar])) s = true ↔
        ∃ t, t <:+ s ∧ w <+: t) := by
  intro s
  induction s with
  | nil =>
    intro fuel h
    obtain ⟨f, rfl⟩ : ∃ f, fuel = f + 1 := ⟨fuel - 1, by omega⟩
    have hlit := likeMatchF_lit_prefix w hw [] f (by simp at h ⊢; omega)
    have hstep : likeMatchF (f + 1) (pctChar :: (w ++ [pctChar])) [] =
        likeMatchF f (w ++ [pctChar]) [] := by
      simp [likeMatchF]
    rw [hstep, hlit]
    constructor
    · intro hp
      exact ⟨[], List.suffix_refl [], hp⟩
    · rintro ⟨t, ht, hp⟩
      have ht0 : t = [] := List.suffix_nil.mp ht
      subst ht0
      exact hp
  | cons x st ih =>
    intro fuel h
    obtain ⟨f, rfl⟩ : ∃ f, fuel = f + 1 := ⟨fuel - 1, by omega⟩
    have hlit := likeMatchF_lit_prefix w hw (x :: st) f (by simp at h ⊢; omega)
    have hih := ih f (by simp at h ⊢; omega)
    have hstep : likeMatchF (f + 1) (pctChar :: (w ++ [pctChar])) (x :: st) =
        (likeMatchF f (w ++ [pctChar]) (x :: st) ||
          likeMatchF f (pctChar :: (w ++ [pctChar])) st) := by
      simp [likeMatchF]
    rw [hstep, Bool.or_eq_true, hlit, hih]
    constructor
    · rintro (hp | ⟨t, ht, hp⟩)
      · exact ⟨x :: st, List.suffix_refl _, hp⟩
      · exact ⟨t, ht.trans (List.suffix_cons x st), hp⟩
    · rintro ⟨t, ht, hp⟩
      rcases List.suffix_cons_iff.mp ht with rfl | ht2
      · exact Or.inl hp
      · exact Or.inr ⟨t, ht2, hp⟩

/-- `listContains` decides the contiguous-substring (infix) relation. -/
theorem listContains_iff_infix (n : List Char) :
    ∀ h : List Char, listContains n h = true ↔ n <:+: h := by
  intro h
  induction h with
  | nil =>
    simp [listContains, List.isEmpty_iff]
  | cons c t ih =>
    simp only [listContains, Bool.or_eq_true, ih, List.infix_cons_iff,
      List.isPrefixOf_iff_prefix]

/-- On needles without SQL wildcard or escape characters, the code's
`ILIKE '%needle%'` coincides with plain case-insensitive substring
containment. -/
theorem ilikeContains_eq_substrContains (hay needle : String)
    (hn : ∀ c ∈ (strLower needle).data, c ≠ pctChar ∧ c ≠ uscChar ∧ c ≠ bslChar) :
    ilikeContains hay needle = substrContains hay needle := by
  have hpat := likeMatchF_pct_prefix (strLower needle).data hn (strLower hay).data
    ((pctChar :: ((strLower needle).data ++ [pctChar])).length +
      (strLower hay).data.length + 1) (by simp; omega)
  have hiff : ilikeContains hay needle = true ↔ substrContains hay needle = true := by
    unfold ilikeContains likeMatch substrContains
    rw [hpat, listContains_iff_infix, List.infix_iff_prefix_suffix]
    constructor
    · rintro ⟨t, ht, hp⟩
      exact ⟨t, hp, ht⟩
    · rintro ⟨t, hp, ht⟩
      exact ⟨t, ht, hp⟩
  cases hA : ilikeContains hay needle <;> cases hB : substrContains hay needle <;>
    simp_all

example : ilikeContains "Philadelphia" "PHIA" = substrContains "Philadelphia" "PHIA" :=
  ilikeContains_eq_substrContains "Philadelphia" "PHIA" (by decide)

theorem mem_insertLe {α : Type} (le : α → α → Bool) (a x : α) (l : List α) :
    x ∈ insertLe le a l ↔ x = a ∨ x ∈ l := by
  induction l with
  | nil => simp [insertLe]
  | cons b t ih =>
    by_cases h : le a b = true
    · simp [insertLe, h]
    · simp only [insertLe, if_neg h, List.mem_cons, ih]
      tauto

theorem perm_insertLe {α : Type} (le : α → α → Bool) (a : α) (l : List α) :
    List.Perm (insertLe le a l) (a :: l) := by
  induction l with
  | nil => rfl
  | cons b t ih =>
    by_cases h : le a b = true
    · simp [insertLe, h]
    · simp only [insertLe, if_neg h]
      exact (ih.cons b).trans (List.Perm.swap a b t)

theorem perm_orderBy {α : Type} (le : α → α → Bool) (l : List α) :
    List.Perm (orderBy le l) l := by
  induction l with
  | nil => rfl
  | cons a t ih => exact (perm_insertLe le a (orderBy le t)).trans (ih.cons a)

theorem pairwise_insertLe {α : Type} (le : α → α → Bool)
    (htot : ∀ a b, le a b = true ∨ le b a = true)
    (htrans : ∀ a b c, le a b = true → le b c = true → le a c = true)
    (a : α) (l : List α) (h : l.Pairwise (fun x y => le x y = true)) :
    (insertLe le a l).Pairwise (fun x y => le x y = true) := by
  induction l with
  | nil => simp [insertLe]
  | cons b t ih =>
    rcases List.pairwise_cons.mp h with ⟨hb, ht⟩
    by_cases hab : le a b = true
    · simp only [insertLe, if_pos hab]
      refine List.pairwise_cons.mpr ⟨?_, h⟩
      intro x hx
      rcases List.mem_cons.mp hx with rfl | hx
      · exact hab
      · exact htrans a b x hab (hb x hx)
    · simp only [insertLe, if_neg hab]
      refine List.pairwise_cons.mpr ⟨?_, ih ht⟩
      intro x hx
      rcases (mem_insertLe le a x t).mp hx with hxa | hx
      · rw [hxa]
        rcases htot a b with hc | hc
        · exact absurd hc hab
        · exact hc
      · exact hb x hx

theorem pairwise_orderBy {α : Type} (le : α → α → Bool)
    (htot : ∀ a b, le a b = true ∨ le b a = true)
    (htrans : ∀ a b c, le a b = true → le b c = true → le a c = true)
    (l : List α) :
    (orderBy le l).Pairwise (fun x y => le x y = true) := by
  induction l with
  | nil => simp [orderBy]
  | cons a t ih => exact pairwise_insertLe le htot htrans a (orderBy le t) ih

theorem mem_insertAsc (d x : Date) (l : List Date) :
    x ∈ insertAsc d l ↔ x = d ∨ x ∈ l := by
  induction l with
  | nil => simp [insertAsc]
  | cons a t ih =>
    by_cases h1 : d = a
    · subst h1
      have he : insertAsc d (d :: t) = d :: t := by
        unfold insertAsc
        simp
      rw [he, List.mem_cons]
      tauto
    · by_cases h2 : d < a
      · simp only [insertAsc, if_neg h1, if_pos h2, List.mem_cons]
      · simp only [insertAsc, if_neg h1, if_neg h2, List.mem_cons, ih]
        tauto

theorem pairwise_insertAsc (d : Date) (l : List Date)
    (h : l.Pairwise (· < ·)) : (insertAsc d l).Pairwise (· < ·) := by
  induction l with
  | nil => simp [insertAsc]
  | cons a t ih =>
    rcases List.pairwise_cons.mp h with ⟨ha, ht⟩
    by_cases h1 : d = a
    · subst h1
      have he : insertAsc d (d :: t) = d :: t := by
        unfold insertAsc
        simp
      rw [he]
      exact h
    · by_cases h2 : d < a
      · simp only [insertAsc, if_neg h1, if_pos h2]
        refine List.pairwise_cons.mpr ⟨?_, h⟩
        intro x hx
        rcases List.mem_cons.mp hx with hxa | hx
        · rw [hxa]; exact h2
        · exact h2.trans (ha x hx)
      · have had : a < d := by
          rcases lt_trichotomy d a with hlt | heq | hgt
          · exact absurd hlt h2
          · exact absurd heq h1
          · exact hgt
        simp only [insertAsc, if_neg h1, if_neg h2]
        refine List.pairwise_cons.mpr ⟨?_, ih ht⟩
        intro x hx
        rcases (mem_insertAsc d x t).mp hx with hxd | hx
        · rw [hxd]; exact had
        · exact ha x hx

theorem pairwise_bucketStarts (p : Period) (rs : List Review) :
    (bucketStarts p rs).Pairwise (· < ·) := by
  induction rs with
  | nil => simp [bucketStarts]
  | cons r t ih => exact pairwise_insertAsc _ _ ih

theorem mem_bucketStarts (p : Period) (rs : List Review) (k : Date) :
    k ∈ bucketStarts p rs ↔ ∃ r ∈ rs, dateTrunc p r.date = k := by
  induction rs with
  | nil => simp [bucketStarts]
  | cons r t ih =>
    rw [show bucketStarts p (r :: t) = insertAsc (dateTrunc p r.date) (bucketStarts p t)
      from rfl, mem_insertAsc, ih]
    constructor
    · rintro (h | ⟨a, ha, hk⟩)
      · exact ⟨r, List.mem_cons_self r t, h.symm⟩
      · exact ⟨a, List.mem_cons_of_mem r ha, hk⟩
    · rintro ⟨a, ha, hk⟩
      rcases List.mem_cons.mp ha with haa | hat
      · subst haa
        exact Or.inl hk.symm
      · exact Or.inr ⟨a, hat, hk⟩

theorem length_filter_le_one {α β : Type} [DecidableEq β] (f : α → β) (v : β)
    (q : α → Bool) (hq : ∀ a, q a = true → f a = v) (l : List α)
    (h : (l.map f).Nodup) : (l.filter q).length ≤ 1 := by
  induction l with
  | nil => simp
  | cons a t ih =>
    rw [List.map_cons, List.nodup_cons] at h
    rcases h with ⟨hfa, ht⟩
    rw [List.filter_cons]
    by_cases hqa : q a = true
    · rw [if_pos hqa]
      have hnil : t.filter q = [] := by
        refine List.eq_nil_iff_forall_not_mem.mpr ?_
        intro x hx
        rcases List.mem_filter.mp hx with ⟨hxt, hqx⟩
        refine hfa ?_
        rw [hq a hqa, ← hq x hqx]
        exact List.mem_map_of_mem f hxt
      rw [hnil]
      simp
    · rw [if_neg hqa]
      exact ih ht

theorem map_const_filter {α β γ : Type} [DecidableEq β] (f : α → β) (v : β)
    (q : α → Bool) (hq : ∀ a, q a = true → f a = v) (l : List α)
    (h : (l.map f).Nodup) (r : γ) :
    (l.filter q).map (fun _ => r) = if l.any q then [r] else [] := by
  have hlen := length_filter_le_one f v q hq l h
  cases hfq : l.filter q with
  | nil =>
    have : l.any q = false := by
      rw [List.any_eq_false]
      intro x hx
      intro hqx
      have : x ∈ l.filter q := List.mem_filter.mpr ⟨hx, hqx⟩
      rw [hfq] at this
      exact absurd this (List.not_mem_nil x)
    rw [this]
    simp
  | cons x xs =>
    have hxs : xs = [] := by
      rw [hfq] at hlen
      cases xs with
      | nil => rfl
      | cons y ys => simp at hlen
    subst hxs
    have hx : x ∈ l.filter q := by
      rw [hfq]
      exact List.mem_cons_self x []
    have : l.any q = true :=
      List.any_eq_true.mpr ⟨x, List.mem_of_mem_filter hx, List.of_mem_filter hx⟩
    rw [this]
    simp

theorem flatten_join_eq_filter {γ : Type} (B : List Business)
    (hB : (B.map (fun b => b.business_id)).Nodup) (rs : List γ)
    (key : γ → String) (q : γ → Business → Bool)
    (hq : ∀ r b, q r b = true → b.business_id = key r) :
    ((rs.map (fun r => (B.filter (q r)).map (fun _ => r))).flatten) =
      rs.filter (fun r => B.any (q r)) := by
  induction rs with
  | nil => rfl
  | cons r t ih =>
    rw [List.map_cons, List.flatten_cons, ih, List.filter_cons]
    rw [map_const_filter (fun b => b.business_id) (key r) (q r)
      (fun b hb => hq r b hb) B hB r]
    by_cases ha : B.any (q r) = true
    · rw [if_pos ha, if_pos ha]
      rfl
    · rw [if_neg ha, if_neg ha]
      rfl

theorem scoped_eq_filter (db : DB) (scope : Scope) (h : PKNodup db) :
    scopedReviews db scope = db.reviews.filter (fun r => scopePred db scope r) := by
  cases scope with
  | business id => rfl
  | city c s =>
    refine flatten_join_eq_filter db.businesses h db.reviews (fun r => r.business_id)
      (fun r b => r.business_id == b.business_id && b.city == c && b.state == s) ?_
    intro r b hb
    simp only [Bool.and_eq_true, beq_iff_eq] at hb
    exact hb.1.1.symm
  | state s =>
    refine flatten_join_eq_filter db.businesses h db.reviews (fun r => r.business_id)
      (fun r b => r.business_id == b.business_id && b.state == s) ?_
    intro r b hb
    simp only [Bool.and_eq_true, beq_iff_eq] at hb
    exact hb.1.symm

theorem windowed_eq_filter (db : DB) (scope : Scope) (sd ed : Option Date)
    (h : PKNodup db) :
    windowedReviews db scope sd ed =
      db.reviews.filter (fun r => scopePred db scope r && inWindow sd ed r) := by
  rw [windowedReviews, scoped_eq_filter db scope h, List.filter_filter]
  refine List.filter_congr ?_
  intro r _
  exact Bool.and_comm _ _

theorem bucketGroup_count (db : DB) (scope : Scope) (p : Period)
    (sd ed : Option Date) (k : Date) (h : PKNodup db) :
    (bucketGroup p (windowedReviews db scope sd ed) k).length =
      countMatching db scope p sd ed k := by
  rw [bucketGroup, windowed_eq_filter db scope sd ed h, List.filter_filter, countMatching]
  congr 1
  refine List.filter_congr ?_
  intro r _
  cases h1 : scopePred db scope r <;> cases h2 : inWindow sd ed r <;>
    cases h3 : dateTrunc p r.date == k <;> simp [h1, h2, h3]

theorem timelineGroups_map_fst (db : DB) (scope : Scope) (p : Period)
    (sd ed : Option Date) :
    (timelineGroups db scope p sd ed).map Prod.fst =
      bucketStarts p (windowedReviews db scope sd ed) := by
  rw [timelineGroups, List.map_map]
  simp [Function.comp_def]

theorem split_sorted_of_perm {α : Type} (key : α → Date) (tag : α → Bool)
    (bs cs rows : List α)
    (hbs : (bs.map key).Pairwise (· < ·)) (hcs : (cs.map key).Pairwise (· < ·))
    (htb : ∀ x ∈ bs, tag x = true) (htc : ∀ x ∈ cs, tag x = false)
    (hperm : List.Perm rows (bs ++ cs))
    (hsort : rows.Pairwise (fun a b => key a ≤ key b)) :
    rows.filter tag = bs ∧ rows.filter (fun x => !(tag x)) = cs := by
  haveI : IsAntisymm α (fun a b => key a < key b) :=
    ⟨fun a b h1 h2 => absurd h2 (lt_asymm h1)⟩
  have side : ∀ (sel : α → Bool) (keep : List α) (drop : List α),
      (keep.map key).Pairwise (· < ·) →
      (∀ x ∈ keep, sel x = true) → (∀ x ∈ drop, sel x = false) →
      List.Perm (rows.filter sel) (keep.filter sel ++ drop.filter sel) →
      rows.filter sel = keep := by
    intro sel keep drp hkeep hsel hdrop hp0
    have hp : List.Perm (rows.filter sel) keep := by
      have hke : keep.filter sel = keep := List.filter_eq_self.mpr hsel
      have hdn : drp.filter sel = [] :=
        List.filter_eq_nil_iff.mpr (fun x hx => by simp [hdrop x hx])
      rw [hke, hdn, List.append_nil] at hp0
      exact hp0
    have hsub : (rows.filter sel).Sublist rows := List.filter_sublist rows
    have hle : (rows.filter sel).Pairwise (fun a b => key a ≤ key b) :=
      hsort.sublist hsub
    have hnodup : ((rows.filter sel).map key).Nodup := by
      have hkn : (keep.map key).Nodup := hkeep.imp (fun h => ne_of_lt h)
      exact ((hp.map key).symm).nodup hkn
    have hne : (rows.filter sel).Pairwise (fun a b => key a ≠ key b) :=
      List.pairwise_map.mp hnodup
    have hlt : (rows.filter sel).Pairwise (fun a b => key a < key b) :=
      (hle.and hne).imp (fun h => lt_of_le_of_ne h.1 h.2)
    exact List.eq_of_perm_of_sorted hp hlt (List.pairwise_map.mp hkeep)
  constructor
  · refine side tag bs cs hbs htb htc ?_
    have := hperm.filter tag
    rwa [List.filter_append] at this
  · refine side (fun x => !(tag x)) cs bs hcs
      (fun x hx => by simp [htc x hx]) (fun x hx => by simp [htb x hx]) ?_
    have := hperm.filter (fun x => !(tag x))
    rw [List.filter_append] at this
    exact this.trans (List.perm_append_comm)

theorem trigrams_congr {a b : String} (h : strLower a = strLower b) :
    trigrams a = trigrams b := by
  unfold trigrams pgWords
  rw [h]

theorem simCommon_congr_left {a a' : String} (h : trigrams a = trigrams a')
    (b : String) : simCommon a b = simCommon a' b := by
  unfold simCommon
  rw [h]

theorem simDenom_congr_left {a a' : String} (h : trigrams a = trigrams a')
    (b : String) : simDenom a b = simDenom a' b := by
  unfold simDenom
  rw [simCommon_congr_left h, h]

theorem pgSimilarity_congr_left {a a' : String} (h : trigrams a = trigrams a')
    (b : String) : pgSimilarity a b = pgSimilarity a' b := by
  unfold pgSimilarity
  rw [simCommon_congr_left h, simDenom_congr_left h]

theorem pgSimilarity_nonneg (a b : String) : 0 ≤ pgSimilarity a b := by
  unfold pgSimilarity
  split
  · exact le_refl 0
  · positivity

theorem simCommon_le_left (a b : String) : simCommon a b ≤ (trigrams a).length :=
  List.length_filter_le _ _

theorem simCommon_le_right (a b : String) : simCommon a b ≤ (trigrams b).length := by
  have h1 : ((trigrams a).filter (fun t => t ∈ trigrams b)).Nodup :=
    (List.nodup_dedup _).filter _
  have h2 : ((trigrams a).filter (fun t => t ∈ trigrams b)).toFinset ⊆
      (trigrams b).toFinset := by
    intro x hx
    rw [List.mem_toFinset] at hx
    rw [List.mem_toFinset]
    have := List.of_mem_filter hx
    exact of_decide_eq_true this
  calc simCommon a b
      = ((trigrams a).filter (fun t => t ∈ trigrams b)).toFinset.card :=
        (List.toFinset_card_of_nodup h1).symm
    _ ≤ (trigrams b).toFinset.card := Finset.card_le_card h2
    _ ≤ (trigrams b).length := (trigrams b).toFinset_card_le

theorem simCommon_le_denom (a b : String) : simCommon a b ≤ simDenom a b := by
  have h1 := simCommon_le_left a b
  have h2 := simCommon_le_right a b
  unfold simDenom
  omega

theorem pgSimilarity_le_one (a b : String) : pgSimilarity a b ≤ 1 := by
  unfold pgSimilarity
  split
  · norm_num
  · rename_i h
    have hpos : 0 < simDenom a b := Nat.pos_of_ne_zero h
    rw [div_le_one (by exact_mod_cast hpos)]
    exact_mod_cast simCommon_le_denom a b

theorem pgSimilarity_self_of (a : String) (h : trigrams a ≠ []) :
    pgSimilarity a a = 1 := by
  have hfull : (trigrams a).filter (fun t => t ∈ trigrams a) = trigrams a :=
    List.filter_eq_self.mpr (fun x hx => decide_eq_true hx)
  have hc : simCommon a a = (trigrams a).length := by
    unfold simCommon
    rw [hfull]
  have hd : simDenom a a = (trigrams a).length := by
    unfold simDenom
    rw [hc]
    omega
  have hlen : (trigrams a).length ≠ 0 := fun h0 => h (List.length_eq_zero.mp h0)
  unfold pgSimilarity
  rw [hc, hd, if_neg hlen]
  rw [div_self (by exact_mod_cast hlen)]

theorem pgSimilarity_right_nil (a b : String) (h : trigrams b = []) :
    pgSimilarity a b = 0 := by
  have hc : simCommon a b = 0 := by
    unfold simCommon
    rw [h]
    simp
  unfold pgSimilarity
  rw [hc]
  split
  · rfl
  · simp

theorem bonus_le (b1 b2 b3 : Bool) :
    sqlCase [(b1, 20), (b2, 15), (b3, 10)] ≤ 20 := by
  cases b1 <;> cases b2 <;> cases b3 <;> simp [sqlCase] <;> norm_num

theorem bonus_nonneg (b1 b2 b3 : Bool) :
    0 ≤ sqlCase [(b1, 20), (b2, 15), (b3, 10)] := by
  cases b1 <;> cases b2 <;> cases b3 <;> simp [sqlCase]

theorem relevance_le_of_no_exact (b : Business) (qc : String)
    (h1 : strLower b.name ≠ qc) (h2 : strLower b.city ≠ qc)
    (h3 : strLower b.state ≠ qc) :
    relevanceScore b qc ≤ 140 := by
  unfold relevanceScore
  have e1 : (strLower b.name == qc) = false := by simp [h1]
  have e2 : (strLower b.city == qc) = false := by simp [h2]
  have e3 : (strLower b.state == qc) = false := by simp [h3]
  rw [show sqlCase [(strLower b.name == qc, 100), (strLower b.city == qc, 90),
      (strLower b.state == qc, 85)] = 0 by rw [e1, e2, e3]; simp [sqlCase]]
  have s1 := pgSimilarity_le_one b.name qc
  have s2 := pgSimilarity_le_one b.city qc
  have s3 := pgSimilarity_le_one b.categories qc
  have hb := bonus_le (ilikeContains b.name qc) (ilikeContains b.city qc)
    (ilikeContains b.categories qc)
  simp only [sqlCoalesce, similarityCol, Option.getD]
  linarith

theorem substrContains_self_of (hay needle : String)
    (h : strLower hay = strLower needle) : substrContains hay needle = true := by
  unfold substrContains
  rw [h]
  exact listContains_self _

theorem relevance_exact_gt (q : String) (r1 r2 : Business)
    (h1 : strLower r1.name = cleanQuery q)
    (h2 : strLower r2.name ≠ cleanQuery q) (h3 : strLower r2.city ≠ cleanQuery q)
    (h4 : strLower r2.state ≠ cleanQuery q) :
    relevanceScore r2 (cleanQuery q) < relevanceScore r1 (cleanQuery q) := by
  have hql : strLower (cleanQuery q) = cleanQuery q := strLower_idem (pyStrip q)
  have htg : trigrams r1.name = trigrams (cleanQuery q) :=
    trigrams_congr (h1.trans hql.symm)
  have hexact : (strLower r1.name == cleanQuery q) = true := by simp [h1]
  have hr2 := relevance_le_of_no_exact r2 (cleanQuery q) h2 h3 h4
  have hcase1 : sqlCase [(strLower r1.name == cleanQuery q, 100),
      (strLower r1.city == cleanQuery q, 90),
      (strLower r1.state == cleanQuery q, 85)] = 100 := by
    rw [hexact]
    simp [sqlCase]
  have hb1 := bonus_nonneg (ilikeContains r1.name (cleanQuery q))
    (ilikeContains r1.city (cleanQuery q)) (ilikeContains r1.categories (cleanQuery q))
  have hc1 := pgSimilarity_nonneg r1.city (cleanQuery q)
  have hc2 := pgSimilarity_nonneg r1.categories (cleanQuery q)
  by_cases hT : trigrams (cleanQuery q) = []
  · have z1 : pgSimilarity r1.name (cleanQuery q) = 0 :=
      pgSimilarity_right_nil _ _ hT
    have z2 : pgSimilarity r2.name (cleanQuery q) = 0 :=
      pgSimilarity_right_nil _ _ hT
    have z3 : pgSimilarity r2.city (cleanQuery q) = 0 :=
      pgSimilarity_right_nil _ _ hT
    have z4 : pgSimilarity r2.categories (cleanQuery q) = 0 :=
      pgSimilarity_right_nil _ _ hT
    have e1 : (strLower r2.name == cleanQuery q) = false := by simp [h2]
    have e2 : (strLower r2.city == cleanQuery q) = false := by simp [h3]
    have e3 : (strLower r2.state == cleanQuery q) = false := by simp [h4]
    have hb := bonus_le (ilikeContains r2.name (cleanQuery q))
      (ilikeContains r2.city (cleanQuery q))
      (ilikeContains r2.categories (cleanQuery q))
    unfold relevanceScore
    rw [hcase1, show sqlCase [(strLower r2.name == cleanQuery q, 100),
      (strLower r2.city == cleanQuery q, 90),
      (strLower r2.state == cleanQuery q, 85)] = 0 by rw [e1, e2, e3]; simp [sqlCase]]
    simp only [sqlCoalesce, similarityCol, Option.getD]
    rw [z1, z2, z3, z4]
    linarith
  · have hone : pgSimilarity r1.name (cleanQuery q) = 1 := by
      rw [pgSimilarity_congr_left htg]
      exact pgSimilarity_self_of _ hT
    unfold relevanceScore
    rw [hcase1]
    simp only [sqlCoalesce, similarityCol, Option.getD]
    rw [hone]
    unfold relevanceScore at hr2
    simp only [sqlCoalesce, similarityCol, Option.getD] at hr2
    linarith

theorem searchLe_total (q : String) (a b : Business) :
    searchLe q a b = true ∨ searchLe q b a = true := by
  unfold searchLe
  rcases le_total (searchKey q a) (searchKey q b) with h | h
  · right
    exact decide_eq_true h
  · left
    exact decide_eq_true h

theorem searchLe_trans (q : String) (a b c : Business)
    (h1 : searchLe q a b = true) (h2 : searchLe q b c = true) :
    searchLe q a c = true := by
  unfold searchLe at h1 h2 ⊢
  exact decide_eq_true ((of_decide_eq_true h2).trans (of_decide_eq_true h1))

theorem searchKey_not_le_of_score_lt (q : String) (a b : Business)
    (h : relevanceScore a (cleanQuery q) < relevanceScore b (cleanQuery q)) :
    ¬(searchKey q b ≤ searchKey q a) := by
  intro hle
  unfold searchKey at hle
  rcases (Prod.Lex.le_iff _ _).mp hle with hlt | ⟨heq, _⟩
  · exact absurd h (lt_asymm hlt)
  · simp only [] at heq
    rw [heq] at h
    exact lt_irrefl _ h

/-- Counterexample for C3 as stated: at the cleaned query "a_c" the code's
score of `cexC3Biz` (name "abc") includes the 20-point bonus, because the
unescaped `ILIKE '%a_c%'` treats `_` as a single-character wildcard and
matches "abc", while the claim's formula reads "contains" as literal
case-insensitive containment and awards no bonus; the two scores are
190/7 and 50/7. -/
theorem claim_c3_counterexample :
    relevanceScore cexC3Biz (cleanQuery "a_c") ≠ specRelevance cexC3Biz (cleanQuery "a_c") := by
  have hq : cleanQuery "a_c" = "a_c" := by decide
  have hs1 : pgSimilarity "abc" "a_c" = 1 / 7 := by
    have h1 : simCommon "abc" "a_c" = 1 := by decide
    have h2 : simDenom "abc" "a_c" = 7 := by decide
    rw [pgSimilarity, h1, h2]
    norm_num
  have hs2 : pgSimilarity "qq" "a_c" = 0 := by
    have h1 : simCommon "qq" "a_c" = 0 := by decide
    have h2 : simDenom "qq" "a_c" = 7 := by decide
    rw [pgSimilarity, h1, h2]
    norm_num
  have hs3 : pgSimilarity "" "a_c" = 0 := by
    have h1 : simCommon "" "a_c" = 0 := by decide
    have h2 : simDenom "" "a_c" = 4 := by decide
    rw [pgSimilarity, h1, h2]
    norm_num
  have hL : relevanceScore cexC3Biz "a_c" = 190 / 7 := by
    show sqlCase [(strLower "abc" == "a_c", 100), (strLower "qq" == "a_c", 90),
        (strLower "ZZ" == "a_c", 85)]
      + sqlCoalesce (similarityCol "abc" "a_c") * 50
      + sqlCoalesce (similarityCol "qq" "a_c") * 40
      + sqlCoalesce (similarityCol "" "a_c") * 30
      + sqlCase [(ilikeContains "abc" "a_c", 20), (ilikeContains "qq" "a_c", 15),
        (ilikeContains "" "a_c", 10)] = 190 / 7
    rw [show (strLower "abc" == "a_c") = false from by decide,
      show (strLower "qq" == "a_c") = false from by decide,
      show (strLower "ZZ" == "a_c") = false from by decide,
      show ilikeContains "abc" "a_c" = true from by decide]
    simp only [sqlCase, sqlCoalesce, similarityCol, Option.getD]
    rw [hs1, hs2, hs3]
    norm_num
  have hR : specRelevance cexC3Biz "a_c" = 50 / 7 := by
    show (if strLower "abc" = "a_c" then (100 : Rat)
        else if strLower "qq" = "a_c" then 90
        else if strLower "ZZ" = "a_c" then 85
        else 0)
      + (match similarityCol "abc" "a_c" with
         | none => 0
         | some v => v * 50)
      + (match similarityCol "qq" "a_c" with
         | none => 0
         | some v => v * 40)
      + (match similarityCol "" "a_c" with
         | none => 0
         | some v => v * 30)
      + (if substrContains "abc" "a_c" then 20
         else if substrContains "qq" "a_c" then 15
         else if substrContains "" "a_c" then 10
         else 0) = 50 / 7
    rw [if_neg (by decide : ¬(strLower "abc" = "a_c")),
      if_neg (by decide : ¬(strLower "qq" = "a_c")),
      if_neg (by decide : ¬(strLower "ZZ" = "a_c")),
      show substrContains "abc" "a_c" = false from by decide,
      show substrContains "qq" "a_c" = false from by decide,
      show substrContains "" "a_c" = false from by decide]
    simp only [similarityCol]
    rw [hs1, hs2, hs3]
    norm_num
  rw [hq, hL, hR]
  norm_num

/-- C3 amended: for every query string q (cleaned to q'), the relevance
score used for search ranking equals the formula: a first-match exact
bonus (100 name / 90 city / 85 state), plus similarity times 50/40/30
for name/city/categories (0 when the similarity is null), plus a
first-match bonus (20 name / 15 city / 10 categories) awarded on the SQL
pattern match `ILIKE '%q'%'` — plain case-insensitive substring
containment whenever q' has no `%`/`_`/`\` characters. -/
theorem relevance_score_matches_amended_formula (b : Business) (q : String) :
    relevanceScore b (cleanQuery q) = amendedSpecRelevance b (cleanQuery q) := by
  unfold relevanceScore amendedSpecRelevance
  simp only [sqlCase, sqlCoalesce, similarityCol, Option.getD, beq_iff_eq]

/-- C10: a query that is empty or whitespace-only yields an empty term
list, the match filter degenerates to `True`, and every stored business
is a candidate, subject only to ranking, offset, and limit. -/
theorem empty_query_matches_all (db : DB) (q : String) (skip lim : Nat)
    (h : splitTerms (cleanQuery q) = []) :
    searchCandidates db q = db.businesses ∧
    search db q skip lim =
      ((orderBy (searchLe q) db.businesses).drop skip).take lim := by
  have hw : searchCandidates db q = db.businesses := by
    unfold searchCandidates whereClause
    rw [h]
    simp
  exact ⟨hw, by unfold search; rw [hw]⟩

/-- Witness for C10 at the whitespace query `"  "` over a one-business
store. -/
theorem empty_query_matches_all_witness :
    splitTerms (cleanQuery "  ") = [] ∧
    searchCandidates ⟨[biz0 "b" "n" "c" "s"], []⟩ "  " = [biz0 "b" "n" "c" "s"] := by
  refine ⟨by decide, ?_⟩
  exact (empty_query_matches_all ⟨[biz0 "b" "n" "c" "s"], []⟩ "  " 0 20 (by decide)).1

theorem validatePeriod_err (p : String) (h : p ∉ validPeriods) :
    validatePeriod p = .error (.badRequest ("Invalid period " ++ p)) := if_neg h

theorem validatePeriod_ok (p : String) (h : p ∈ validPeriods) :
    validatePeriod p = .ok () := if_pos h

theorem validateMetric_err (m : String) (h : m ∉ validMetrics) :
    validateMetric m = .error (.badRequest ("Invalid metric " ++ m)) := if_neg h

theorem validateMetric_ok (m : String) (h : m ∈ validMetrics) :
    validateMetric m = .ok () := if_pos h

theorem parsePeriod_of_valid (p : String) (h : p ∈ validPeriods) :
    ∃ pp, parsePeriod p = some pp := by
  simp only [validPeriods, List.mem_cons, List.mem_singleton] at h
  rcases h with rfl | rfl | rfl | rfl | h
  · exact ⟨.day, rfl⟩
  · exact ⟨.week, rfl⟩
  · exact ⟨.month, rfl⟩
  · exact ⟨.year, rfl⟩
  · exact absurd h (List.not_mem_nil p)

/-- C9: a timeline or comparison request whose period is outside
{day, week, month, year}, or whose metric is outside {rating, sentiment},
fails with a 400 validation error immediately: the whole result is the
error, so no aggregation output is produced. -/
theorem invalid_period_or_metric_rejected (db : DB) (id c s metric p : String)
    (sd ed : Option Date) :
    (p ∉ validPeriods →
      (∃ m, svcBusinessRatingsTimeline db id p sd ed = .error (.badRequest m)) ∧
      (∃ m, svcBusinessSentimentTimeline db id p sd ed = .error (.badRequest m)) ∧
      (∃ m, svcCityRatingsTimeline db c s p sd ed = .error (.badRequest m)) ∧
      (∃ m, svcStateRatingsTimeline db s p sd ed = .error (.badRequest m)) ∧
      (∃ m, svcCityComparison db id metric p sd ed = .error (.badRequest m)) ∧
      (∃ m, svcStateComparison db id metric p sd ed = .error (.badRequest m))) ∧
    (metric ∉ validMetrics →
      (∃ m, svcCityComparison db id metric p sd ed = .error (.badRequest m)) ∧
      (∃ m, svcStateComparison db id metric p sd ed = .error (.badRequest m))) := by
  constructor
  · intro h
    refine ⟨⟨"Invalid period " ++ p, ?_⟩, ⟨"Invalid period " ++ p, ?_⟩,
      ⟨"Invalid period " ++ p, ?_⟩, ⟨"Invalid period " ++ p, ?_⟩,
      ⟨"Invalid period " ++ p, ?_⟩, ⟨"Invalid period " ++ p, ?_⟩⟩
    · unfold svcBusinessRatingsTimeline
      rw [validatePeriod_err p h]
    · unfold svcBusinessSentimentTimeline
      rw [validatePeriod_err p h]
    · unfold svcCityRatingsTimeline
      rw [validatePeriod_err p h]
    · unfold svcStateRatingsTimeline
      rw [validatePeriod_err p h]
    · unfold svcCityComparison
      rw [validatePeriod_err p h]
    · unfold svcStateComparison
      rw [validatePeriod_err p h]
  · intro h
    by_cases hp : p ∈ validPeriods
    · constructor
      · refine ⟨"Invalid metric " ++ metric, ?_⟩
        unfold svcCityComparison
        rw [validatePeriod_ok p hp, validateMetric_err metric h]
      · refine ⟨"Invalid metric " ++ metric, ?_⟩
        unfold svcStateComparison
        rw [validatePeriod_ok p hp, validateMetric_err metric h]
    · constructor
      · refine ⟨"Invalid period " ++ p, ?_⟩
        unfold svcCityComparison
        rw [validatePeriod_err p hp]
      · refine ⟨"Invalid period " ++ p, ?_⟩
        unfold svcStateComparison
        rw [validatePeriod_err p hp]

/-- Witness for C9 at the invalid period `"hour"` and invalid metric
`"stars"`. -/
theorem invalid_period_or_metric_rejected_witness :
    ("hour" ∉ validPeriods ∧ "stars" ∉ validMetrics) ∧
    (∃ m, svcBusinessRatingsTimeline ⟨[], []⟩ "B1" "hour" none none =
      .error (.badRequest m)) ∧
    (∃ m, svcCityComparison ⟨[], []⟩ "B1" "stars" "month" none none =
      .error (.badRequest m)) := by
  refine ⟨⟨by decide, by decide⟩, ?_, ?_⟩
  · exact ((invalid_period_or_metric_rejected ⟨[], []⟩ "B1" "c" "s" "stars" "hour"
      none none).1 (by decide)).1
  · exact ((invalid_period_or_metric_rejected ⟨[], []⟩ "B1" "c" "s" "stars" "month"
      none none).2 (by decide)).1

/-- C5 (amended): with a valid period, the business-scoped timelines and
comparisons fail with a not-found error for an unknown business id, the
lookup preceding any aggregation; the city- and state-scoped timelines
perform no region existence check and always succeed, returning an empty
data series for an unknown region. -/
theorem unknown_reference_handling (db : DB) (id c s metric p : String)
    (sd ed : Option Date) (hp : p ∈ validPeriods) :
    (get_by_id db id = none →
      (∃ m, svcBusinessRatingsTimeline db id p sd ed = .error (.notFound m)) ∧
      (∃ m, svcBusinessSentimentTimeline db id p sd ed = .error (.notFound m)) ∧
      (metric ∈ validMetrics →
        (∃ m, svcCityComparison db id metric p sd ed = .error (.notFound m)) ∧
        (∃ m, svcStateComparison db id metric p sd ed = .error (.notFound m)))) ∧
    (∃ resp, svcCityRatingsTimeline db c s p sd ed = .ok resp) ∧
    (∃ resp, svcStateRatingsTimeline db s p sd ed = .ok resp) := by
  obtain ⟨pp, hpp⟩ := parsePeriod_of_valid p hp
  refine ⟨?_, ?_, ?_⟩
  · intro hn
    refine ⟨⟨"Business with ID " ++ id ++ " not found", ?_⟩,
      ⟨"Business with ID " ++ id ++ " not found", ?_⟩, ?_⟩
    · unfold svcBusinessRatingsTimeline
      rw [validatePeriod_ok p hp, hn]
    · unfold svcBusinessSentimentTimeline
      rw [validatePeriod_ok p hp, hn]
    · intro hm
      refine ⟨⟨"Business with ID " ++ id ++ " not found", ?_⟩,
        ⟨"Business with ID " ++ id ++ " not found", ?_⟩⟩
      · unfold svcCityComparison
        rw [validatePeriod_ok p hp, validateMetric_ok metric hm, hn]
      · unfold svcStateComparison
        rw [validatePeriod_ok p hp, validateMetric_ok metric hm, hn]
  · refine ⟨⟨c, s, p, "rating", sd.map Date.isoformat, ed.map Date.isoformat,
      (timelineGroups db (.city c s) pp sd ed).map mkRegionRatingPoint⟩, ?_⟩
    unfold svcCityRatingsTimeline get_city_ratings_over_time
    rw [validatePeriod_ok p hp, hpp]
  · refine ⟨⟨s, p, "rating", sd.map Date.isoformat, ed.map Date.isoformat,
      (timelineGroups db (.state s) pp sd ed).map mkRegionRatingPoint⟩, ?_⟩
    unfold svcStateRatingsTimeline get_state_ratings_over_time
    rw [validatePeriod_ok p hp, hpp]

/-- Counterexample for C5 as stated: on an empty data store the city
timeline for the unknown city ("Springfield", "ZZ") does not produce a
not-found failure; it succeeds with an empty data series. -/
theorem unknown_city_timeline_succeeds :
    svcCityRatingsTimeline ⟨[], []⟩ "Springfield" "ZZ" "month" none none =
      .ok ⟨"Springfield", "ZZ", "month", "rating", none, none, []⟩ := by
  rfl

/-- Witness for C5 (amended) at an empty store and business id "X". -/
theorem unknown_reference_handling_witness :
    ("month" ∈ validPeriods ∧ get_by_id ⟨[], []⟩ "X" = none) ∧
    (∃ m, svcBusinessRatingsTimeline ⟨[], []⟩ "X" "month" none none =
      .error (.notFound m)) ∧
    (∃ resp, svcCityRatingsTimeline ⟨[], []⟩ "Springfield" "ZZ" "month" none none =
      .ok resp) := by
  refine ⟨⟨by decide, rfl⟩, ?_, ?_⟩
  · exact (((unknown_reference_handling ⟨[], []⟩ "X" "Springfield" "ZZ" "rating"
      "month" none none (by decide)).1) rfl).1
  · exact (unknown_reference_handling ⟨[], []⟩ "X" "Springfield" "ZZ" "rating"
      "month" none none (by decide)).2.1

/-- C7: with south < north and west < east, every business returned by
the viewport query lies inside the inclusive bounding box, and every
stored business inside the box (boundary included) is present in the
ranked pre-limit result; with south ≥ north or west ≥ east the service
fails validation before running any query. -/
theorem viewport_bounds (db : DB) (south north west east : Rat) (lim : Nat) :
    (south < north → west < east →
      get_businesses_in_viewport db south north west east lim =
        .ok (get_in_viewport db south north west east lim) ∧
      (∀ b ∈ get_in_viewport db south north west east lim,
        south ≤ b.latitude ∧ b.latitude ≤ north ∧
        west ≤ b.longitude ∧ b.longitude ≤ east) ∧
      (∀ b ∈ db.businesses, south ≤ b.latitude → b.latitude ≤ north →
        west ≤ b.longitude → b.longitude ≤ east →
        b ∈ orderBy rankLe (db.businesses.filter (inViewport south north west east)))) ∧
    ((north ≤ south ∨ east ≤ west) →
      ∃ m, get_businesses_in_viewport db south north west east lim =
        .error (.badRequest m)) := by
  constructor
  · intro h1 h2
    refine ⟨?_, ?_, ?_⟩
    · unfold get_businesses_in_viewport
      rw [if_neg (not_le.mpr h1), if_neg (not_le.mpr h2)]
    · intro b hb
      unfold get_in_viewport at hb
      have hb1 : b ∈ orderBy rankLe (db.businesses.filter (inViewport south north west east)) :=
        List.mem_of_mem_take hb
      have hb2 : b ∈ db.businesses.filter (inViewport south north west east) :=
        ((perm_orderBy _ _).mem_iff).mp hb1
      have hb3 := List.of_mem_filter hb2
      unfold inViewport at hb3
      simp only [Bool.and_eq_true, decide_eq_true_eq] at hb3
      exact ⟨hb3.1.1.1, hb3.1.1.2, hb3.1.2, hb3.2⟩
    · intro b hb ha1 ha2 ha3 ha4
      have hv : inViewport south north west east b = true := by
        unfold inViewport
        simp only [Bool.and_eq_true, decide_eq_true_eq]
        exact ⟨⟨⟨ha1, ha2⟩, ha3⟩, ha4⟩
      exact ((perm_orderBy _ _).mem_iff).mpr (List.mem_filter.mpr ⟨hb, hv⟩)
  · intro h
    unfold get_businesses_in_viewport
    by_cases h0 : south ≥ north
    · exact ⟨"South latitude must be less than north latitude", by rw [if_pos h0]⟩
    · rcases h with h | h
      · exact absurd h h0
      · exact ⟨"West longitude must be less than east longitude",
          by rw [if_neg h0, if_pos h]⟩

/-- Witness for C7: a business exactly on the south/west boundary of the
viewport [0,1]×[0,1] is kept by the filter and ranked result. -/
theorem viewport_bounds_witness :
    (0 : Rat) < 1 ∧
    biz0 "v" "n" "c" "s" ∈ orderBy rankLe
      ((⟨[biz0 "v" "n" "c" "s"], []⟩ : DB).businesses.filter (inViewport 0 1 0 1)) := by
  refine ⟨by norm_num, ?_⟩
  have h := (viewport_bounds ⟨[biz0 "v" "n" "c" "s"], []⟩ 0 1 0 1 10).1
    (by norm_num) (by norm_num)
  exact h.2.2 (biz0 "v" "n" "c" "s") (List.mem_singleton.mpr rfl)
    (by norm_num [biz0]) (by norm_num [biz0]) (by norm_num [biz0]) (by norm_num [biz0])

/-- C8: for business B1 with exactly the two reviews 2023-01-10 (4 stars)
and 2023-01-20 (5 stars), the monthly ratings timeline is a single bucket
with average rating 4.5 and review count 2 — but its period_start string
is "2023-01-01T00:00:00", not the claimed "2023-01-01": `date_trunc`
returns a midnight *timestamp* and `row.period_start.isoformat()`
(`review_repository.py:133`) keeps its time part. -/
theorem month_bucket_code_behavior :
    get_business_ratings_over_time db8 "B1" "month" none none =
      .ok [⟨"2023-01-01T00:00:00", 9 / 2, 2⟩] ∧
    "2023-01-01T00:00:00" ≠ "2023-01-01" := by
  refine ⟨?_, by decide⟩
  have hg : timelineGroups db8 (.business "B1") .month none none =
      [(⟨2023, 1, 1⟩, [rev0 "r1" "B1" 4 ⟨2023, 1, 10⟩, rev0 "r2" "B1" 5 ⟨2023, 1, 20⟩])] := by
    decide
  have hp : parsePeriod "month" = some .month := rfl
  have hiso : timestampIso ⟨2023, 1, 1⟩ = "2023-01-01T00:00:00" := by decide
  simp only [get_business_ratings_over_time, hp, hg]
  simp [mkRatingPoint, hiso, ratAvg, rev0]
  norm_num

/-- C4: for every period, scope (business, city, or state) and optional
window, the timeline's buckets are in strictly increasing chronological
order, every emitted bucket holds at least one review, each bucket's size
equals the number of stored reviews of the scope that truncate into it
inside the window, and the three repository timelines are exactly the
shaped images of these buckets (so each output row's `review_count` is
its bucket's size). -/
theorem timeline_buckets_correct (db : DB) (scope : Scope) (pp : Period)
    (p : String) (sd ed : Option Date) (hnd : PKNodup db)
    (hp : parsePeriod p = some pp) :
    ((timelineGroups db scope pp sd ed).map Prod.fst).Pairwise (· < ·) ∧
    (∀ kg ∈ timelineGroups db scope pp sd ed,
      0 < kg.2.length ∧ kg.2.length = countMatching db scope pp sd ed kg.1) ∧
    (match scope with
     | .business id => get_business_ratings_over_time db id p sd ed =
         .ok ((timelineGroups db (.business id) pp sd ed).map mkRatingPoint)
     | .city c s => get_city_ratings_over_time db c s p sd ed =
         .ok ((timelineGroups db (.city c s) pp sd ed).map mkRegionRatingPoint)
     | .state s => get_state_ratings_over_time db s p sd ed =
         .ok ((timelineGroups db (.state s) pp sd ed).map mkRegionRatingPoint)) := by
  refine ⟨?_, ?_, ?_⟩
  · rw [timelineGroups_map_fst]
    exact pairwise_bucketStarts _ _
  · intro kg hkg
    obtain ⟨k, hk, rfl⟩ := List.mem_map.mp hkg
    constructor
    · obtain ⟨r, hr, ht⟩ := (mem_bucketStarts _ _ _).mp hk
      have hrg : r ∈ bucketGroup pp (windowedReviews db scope sd ed) k :=
        List.mem_filter.mpr ⟨hr, by simp [ht]⟩
      exact List.length_pos.mpr (List.ne_nil_of_mem hrg)
    · exact bucketGroup_count db scope pp sd ed k hnd
  · cases scope with
    | business id => simp only [get_business_ratings_over_time, hp]
    | city c s => simp only [get_city_ratings_over_time, hp]
    | state s => simp only [get_state_ratings_over_time, hp]

/-- Witness for C4 on the worked-example store, business scope, monthly
buckets. -/
theorem timeline_buckets_correct_witness :
    (PKNodup db8 ∧ parsePeriod "month" = some .month) ∧
    (∀ kg ∈ timelineGroups db8 (.business "B1") .month none none,
      0 < kg.2.length ∧
      kg.2.length = countMatching db8 (.business "B1") .month none none kg.1) := by
  refine ⟨⟨by unfold PKNodup; decide, rfl⟩, ?_⟩
  exact (timeline_buckets_correct db8 (.business "B1") .month "month" none none
    (by unfold PKNodup; decide) rfl).2.1

theorem pgSimilarity_eq_zero_of_common (a b : String) (h : simCommon a b = 0) :
    pgSimilarity a b = 0 := by
  unfold pgSimilarity
  rw [h]
  split
  · rfl
  · simp

theorem termCondition_eq_amended (b : Business) (t : String) :
    termCondition b t = amendedC1TermHit b t := by
  unfold termCondition amendedC1TermHit
  simp only [List.any_cons, List.any_nil, Bool.or_false]
  cases ilikeContains b.name t <;> cases ilikeContains b.city t <;>
    cases ilikeContains b.state t <;> cases ilikeContains b.categories t <;>
    simp [Bool.or_assoc]

/-- C1 (amended): for a query with at least one term, a business is in
the search candidate set iff it is stored and some term satisfies: the
SQL pattern match `ILIKE` of the term wrapped in `%` — case-insensitive
substring containment whenever the term has no `%`/`_`/`\` characters —
on any of name/city/state/categories, or trigram similarity strictly
above 0.3 on any of name/city/categories (the code runs no similarity
test on `state`; and an empty term list makes the filter `True`,
covered by C10). -/
theorem search_candidates_amended (db : DB) (q : String) (b : Business)
    (h : splitTerms (cleanQuery q) ≠ []) :
    b ∈ searchCandidates db q ↔
      b ∈ db.businesses ∧ amendedC1Matches q b = true := by
  unfold searchCandidates
  rw [List.mem_filter]
  have hw : whereClause q b = amendedC1Matches q b := by
    unfold whereClause amendedC1Matches
    rw [if_neg (by simpa using h)]
    rw [funext (fun t => termCondition_eq_amended b t)]
  rw [hw]

/-- Witness for C1 (amended) at query "pizza" over a one-business store. -/
theorem search_candidates_amended_witness :
    splitTerms (cleanQuery "pizza") ≠ [] ∧
    (biz0 "w1" "joes pizza" "philadelphia" "pa" ∈
        searchCandidates ⟨[biz0 "w1" "joes pizza" "philadelphia" "pa"], []⟩ "pizza" ↔
      biz0 "w1" "joes pizza" "philadelphia" "pa" ∈
        (⟨[biz0 "w1" "joes pizza" "philadelphia" "pa"], []⟩ : DB).businesses ∧
      amendedC1Matches "pizza" (biz0 "w1" "joes pizza" "philadelphia" "pa") = true) :=
  ⟨by decide, search_candidates_amended ⟨[biz0 "w1" "joes pizza" "philadelphia" "pa"], []⟩
    "pizza" _ (by decide)⟩

theorem cexC1_claim_matches : claimC1Matches "abc" cexC1Biz = true := by
  have hterms : splitTerms (cleanQuery "abc") = ["abc"] := by decide
  have hsAB : pgSimilarity "AB" "abc" = 2 / 5 := by
    have h1 : simCommon "AB" "abc" = 2 := by decide
    have h2 : simDenom "AB" "abc" = 5 := by decide
    rw [pgSimilarity, h1, h2]
    norm_num
  unfold claimC1Matches
  rw [hterms]
  refine List.any_eq_true.mpr ⟨"abc", List.mem_singleton.mpr rfl, ?_⟩
  unfold claimC1TermHit
  refine List.any_eq_true.mpr ⟨cexC1Biz.state, ?_, ?_⟩
  · simp [cexC1Biz, biz0]
  · have hd : decide (pgSimilarity cexC1Biz.state "abc" > 3 / 10) = true := by
      refine decide_eq_true ?_
      show pgSimilarity cexC1Biz.state "abc" > 3 / 10
      rw [show cexC1Biz.state = "AB" from rfl, hsAB]
      norm_num
    simp [hd]

theorem cexC1_code_rejects : whereClause "abc" cexC1Biz = false := by
  have hterms : splitTerms (cleanQuery "abc") = ["abc"] := by decide
  unfold whereClause
  rw [hterms, if_neg (by decide)]
  simp only [List.any_cons, List.any_nil, Bool.or_false]
  unfold termCondition
  have c1 : ilikeContains cexC1Biz.name "abc" = false := by decide
  have c2 : ilikeContains cexC1Biz.city "abc" = false := by decide
  have c3 : ilikeContains cexC1Biz.state "abc" = false := by decide
  have c4 : ilikeContains cexC1Biz.categories "abc" = false := by decide
  have s1 : pgSimilarity cexC1Biz.name "abc" = 0 :=
    pgSimilarity_eq_zero_of_common _ _ (by decide)
  have s2 : pgSimilarity cexC1Biz.city "abc" = 0 :=
    pgSimilarity_eq_zero_of_common _ _ (by decide)
  have s3 : pgSimilarity cexC1Biz.categories "abc" = 0 :=
    pgSimilarity_eq_zero_of_common _ _ (by decide)
  have d1 : decide (pgSimilarity cexC1Biz.name "abc" > 3 / 10) = false :=
    decide_eq_false (by rw [s1]; norm_num)
  have d2 : decide (pgSimilarity cexC1Biz.city "abc" > 3 / 10) = false :=
    decide_eq_false (by rw [s2]; norm_num)
  have d3 : decide (pgSimilarity cexC1Biz.categories "abc" > 3 / 10) = false :=
    decide_eq_false (by rw [s3]; norm_num)
  rw [c1, c2, c3, c4, d1, d2, d3]
  rfl

/-- Counterexample for C1 as stated: at query "abc" the spec's predicate
(four-field similarity) accepts `cexC1Biz`, but the search candidate set
of the code excludes it, so the claimed equivalence fails. -/
theorem claim_c1_counterexample :
    ¬((cexC1Biz ∈ searchCandidates cexC1DB "abc") ↔
      claimC1Matches "abc" cexC1Biz = true) := by
  intro hiff
  have hmem := hiff.mpr cexC1_claim_matches
  have hw : whereClause "abc" cexC1Biz = true := List.of_mem_filter hmem
  rw [cexC1_code_rejects] at hw
  exact Bool.false_ne_true hw

/-- C6: for a fixed query and candidate set, a record whose name exactly
equals the lowercased trimmed query is never ranked strictly below a
record with no exact field equality (in particular one matching only by
partial substring): wherever both occur in the search output, the
exact-name record's position is at or above the other's. -/
theorem exact_name_ranked_first (db : DB) (q : String) (skip lim : Nat)
    (r1 r2 : Business) (h1 : r1.name = cleanQuery q)
    (h2 : strLower r2.name ≠ cleanQuery q) (h3 : strLower r2.city ≠ cleanQuery q)
    (h4 : strLower r2.state ≠ cleanQuery q) :
    ∀ (i j : Nat) (hi : i < (search db q skip lim).length)
      (hj : j < (search db q skip lim).length),
      (search db q skip lim)[i] = r1 → (search db q skip lim)[j] = r2 → i ≤ j := by
  intro i j hi hj he1 he2
  by_contra hij
  push_neg at hij
  have hpw : (search db q skip lim).Pairwise (fun a b => searchLe q a b = true) := by
    have h0 := pairwise_orderBy (searchLe q) (searchLe_total q) (searchLe_trans q)
      (searchCandidates db q)
    have hsub : (search db q skip lim).Sublist
        (orderBy (searchLe q) (searchCandidates db q)) :=
      ((orderBy (searchLe q) (searchCandidates db q)).drop skip).take_sublist lim
        |>.trans ((orderBy (searchLe q) (searchCandidates db q)).drop_sublist skip)
    exact h0.sublist hsub
  have hrel := List.pairwise_iff_getElem.mp hpw j i hj hi hij
  rw [he1, he2] at hrel
  have hscore : relevanceScore r2 (cleanQuery q) < relevanceScore r1 (cleanQuery q) := by
    refine relevance_exact_gt q r1 r2 ?_ h2 h3 h4
    rw [h1]
    exact strLower_idem (pyStrip q)
  exact searchKey_not_le_of_score_lt q r2 r1 hscore (of_decide_eq_true hrel)

/-- Witness for C6: the exact-name record "alpha" against a
substring-only record, query "alpha". -/
theorem exact_name_ranked_first_witness :
    ((biz0 "a" "alpha" "c1" "s1").name = cleanQuery "alpha" ∧
      strLower (biz0 "b" "xalphax" "c2" "s2").name ≠ cleanQuery "alpha") ∧
    (∀ (i j : Nat)
      (hi : i < (search ⟨[biz0 "a" "alpha" "c1" "s1", biz0 "b" "xalphax" "c2" "s2"], []⟩
        "alpha" 0 20).length)
      (hj : j < (search ⟨[biz0 "a" "alpha" "c1" "s1", biz0 "b" "xalphax" "c2" "s2"], []⟩
        "alpha" 0 20).length),
      (search ⟨[biz0 "a" "alpha" "c1" "s1", biz0 "b" "xalphax" "c2" "s2"], []⟩
        "alpha" 0 20)[i] = biz0 "a" "alpha" "c1" "s1" →
      (search ⟨[biz0 "a" "alpha" "c1" "s1", biz0 "b" "xalphax" "c2" "s2"], []⟩
        "alpha" 0 20)[j] = biz0 "b" "xalphax" "c2" "s2" → i ≤ j) := by
  refine ⟨⟨by decide, by decide⟩, ?_⟩
  exact exact_name_ranked_first
    ⟨[biz0 "a" "alpha" "c1" "s1", biz0 "b" "xalphax" "c2" "s2"], []⟩
    "alpha" 0 20 _ _ (by decide) (by decide) (by decide) (by decide)

theorem cmpRatingLe_total (a b : CmpRatingRow) :
    cmpRatingLe a b = true ∨ cmpRatingLe b a = true := by
  unfold cmpRatingLe
  rcases le_total a.period_start b.period_start with h | h
  · exact Or.inl (decide_eq_true h)
  · exact Or.inr (decide_eq_true h)

theorem cmpRatingLe_trans (a b c : CmpRatingRow)
    (h1 : cmpRatingLe a b = true) (h2 : cmpRatingLe b c = true) :
    cmpRatingLe a c = true := by
  unfold cmpRatingLe at h1 h2 ⊢
  exact decide_eq_true ((of_decide_eq_true h1).trans (of_decide_eq_true h2))

theorem cmpSentLe_total (a b : CmpSentRow) :
    cmpSentLe a b = true ∨ cmpSentLe b a = true := by
  unfold cmpSentLe
  rcases le_total a.period_start b.period_start with h | h
  · exact Or.inl (decide_eq_true h)
  · exact Or.inr (decide_eq_true h)

theorem cmpSentLe_trans (a b c : CmpSentRow)
    (h1 : cmpSentLe a b = true) (h2 : cmpSentLe b c = true) :
    cmpSentLe a c = true := by
  unfold cmpSentLe at h1 h2 ⊢
  exact decide_eq_true ((of_decide_eq_true h1).trans (of_decide_eq_true h2))

theorem pairwise_lt_map_rows {β : Type} (db : DB) (sc : Scope) (pp : Period)
    (sd ed : Option Date) (f : Date × List Review → β) (key : β → Date)
    (hkey : ∀ kg, key (f kg) = kg.1) :
    (((timelineGroups db sc pp sd ed).map f).map key).Pairwise (· < ·) := by
  rw [List.map_map]
  have h1 : (key ∘ f) = (fun kg : Date × List Review => kg.1) := funext hkey
  rw [h1]
  have h2 : (timelineGroups db sc pp sd ed).map
      (fun kg : Date × List Review => kg.1) =
      bucketStarts pp (windowedReviews db sc sd ed) :=
    timelineGroups_map_fst db sc pp sd ed
  rw [h2]
  exact pairwise_bucketStarts _ _

theorem cmp_rating_split (db : DB) (id : String) (sc : Scope) (tg : String)
    (htag : (tg == "business") = false) (pp : Period) (sd ed : Option Date) :
    (orderBy cmpRatingLe (bizCmpRatingRows db id pp sd ed ++
        peerCmpRatingRows db sc tg pp sd ed)).filter
      (fun r => r.data_type == "business") = bizCmpRatingRows db id pp sd ed ∧
    (orderBy cmpRatingLe (bizCmpRatingRows db id pp sd ed ++
        peerCmpRatingRows db sc tg pp sd ed)).filter
      (fun r => !(r.data_type == "business")) = peerCmpRatingRows db sc tg pp sd ed := by
  refine split_sorted_of_perm (fun r => r.period_start) _ _ _ _ ?_ ?_ ?_ ?_ ?_ ?_
  · exact pairwise_lt_map_rows db (.business id) pp sd ed _ _ (fun kg => rfl)
  · exact pairwise_lt_map_rows db sc pp sd ed _ _ (fun kg => rfl)
  · intro x hx
    obtain ⟨kg, _, rfl⟩ := List.mem_map.mp hx
    rfl
  · intro x hx
    obtain ⟨kg, _, rfl⟩ := List.mem_map.mp hx
    exact htag
  · exact perm_orderBy _ _
  · exact (pairwise_orderBy cmpRatingLe cmpRatingLe_total cmpRatingLe_trans _).imp
      (fun h => of_decide_eq_true h)

theorem cmp_sent_split (db : DB) (id : String) (sc : Scope) (tg : String)
    (htag : (tg == "business") = false) (pp : Period) (sd ed : Option Date) :
    (orderBy cmpSentLe (bizCmpSentRows db id pp sd ed ++
        peerCmpSentRows db sc tg pp sd ed)).filter
      (fun r => r.data_type == "business") = bizCmpSentRows db id pp sd ed ∧
    (orderBy cmpSentLe (bizCmpSentRows db id pp sd ed ++
        peerCmpSentRows db sc tg pp sd ed)).filter
      (fun r => !(r.data_type == "business")) = peerCmpSentRows db sc tg pp sd ed := by
  refine split_sorted_of_perm (fun r => r.period_start) _ _ _ _ ?_ ?_ ?_ ?_ ?_ ?_
  · exact pairwise_lt_map_rows db (.business id) pp sd ed _ _ (fun kg => rfl)
  · exact pairwise_lt_map_rows db sc pp sd ed _ _ (fun kg => rfl)
  · intro x hx
    obtain ⟨kg, _, rfl⟩ := List.mem_map.mp hx
    rfl
  · intro x hx
    obtain ⟨kg, _, rfl⟩ := List.mem_map.mp hx
    exact htag
  · exact perm_orderBy _ _
  · exact (pairwise_orderBy cmpSentLe cmpSentLe_total cmpSentLe_trans _).imp
      (fun h => of_decide_eq_true h)

theorem cmp_rating_case (db : DB) (id : String) (sc : Scope) (tg : String)
    (htag : (tg == "business") = false) (pp : Period) (sd ed : Option Date) :
    ((splitRatingRows (orderBy cmpRatingLe (bizCmpRatingRows db id pp sd ed ++
        peerCmpRatingRows db sc tg pp sd ed))).1.map regionToRating =
      (timelineGroups db (.business id) pp sd ed).map mkRatingPoint) ∧
    (∀ x ∈ (splitRatingRows (orderBy cmpRatingLe (bizCmpRatingRows db id pp sd ed ++
        peerCmpRatingRows db sc tg pp sd ed))).1, x.business_count = 1) ∧
    ((splitRatingRows (orderBy cmpRatingLe (bizCmpRatingRows db id pp sd ed ++
        peerCmpRatingRows db sc tg pp sd ed))).2 =
      (timelineGroups db sc pp sd ed).map mkRegionRatingPoint) := by
  have hs := cmp_rating_split db id sc tg htag pp sd ed
  unfold splitRatingRows
  rw [hs.1, hs.2]
  refine ⟨?_, ?_, ?_⟩
  · unfold bizCmpRatingRows
    rw [List.map_map, List.map_map]
    rfl
  · intro x hx
    obtain ⟨row, hrow, rfl⟩ := List.mem_map.mp hx
    obtain ⟨kg, _, rfl⟩ := List.mem_map.mp hrow
    rfl
  · unfold peerCmpRatingRows
    rw [List.map_map]
    rfl

theorem cmp_sent_case (db : DB) (id : String) (sc : Scope) (tg : String)
    (htag : (tg == "business") = false) (pp : Period) (sd ed : Option Date) :
    ((splitSentRows (orderBy cmpSentLe (bizCmpSentRows db id pp sd ed ++
        peerCmpSentRows db sc tg pp sd ed))).1.map regionToSent =
      (timelineGroups db (.business id) pp sd ed).map mkSentimentPoint) ∧
    (∀ x ∈ (splitSentRows (orderBy cmpSentLe (bizCmpSentRows db id pp sd ed ++
        peerCmpSentRows db sc tg pp sd ed))).1, x.business_count = 1) ∧
    ((splitSentRows (orderBy cmpSentLe (bizCmpSentRows db id pp sd ed ++
        peerCmpSentRows db sc tg pp sd ed))).2 =
      (timelineGroups db sc pp sd ed).map mkRegionSentimentPoint) := by
  have hs := cmp_sent_split db id sc tg htag pp sd ed
  unfold splitSentRows
  rw [hs.1, hs.2]
  refine ⟨?_, ?_, ?_⟩
  · unfold bizCmpSentRows
    rw [List.map_map, List.map_map]
    rfl
  · intro x hx
    obtain ⟨row, hrow, rfl⟩ := List.mem_map.mp hx
    obtain ⟨kg, _, rfl⟩ := List.mem_map.mp hrow
    rfl
  · unfold peerCmpSentRows
    rw [List.map_map]
    rfl

/-- C2: for every business id, period, metric and window, splitting the
paired comparison result reproduces exactly the two independently
computed 4.4 series: the peer side equals the city/state timeline
row-for-row, and the business side equals the business timeline
row-for-row once its synthetic constant `business_count = 1` (added for
a uniform field set) is dropped. -/
theorem comparison_is_split_of_independent_series (db : DB) (id c s p : String)
    (pp : Period) (sd ed : Option Date) (hp : parsePeriod p = some pp) :
    (Except.ok ((get_business_and_city_ratings_comparison db id c s pp sd ed).1.map
        regionToRating) = get_business_ratings_over_time db id p sd ed ∧
      (∀ x ∈ (get_business_and_city_ratings_comparison db id c s pp sd ed).1,
        x.business_count = 1) ∧
      Except.ok (get_business_and_city_ratings_comparison db id c s pp sd ed).2 =
        get_city_ratings_over_time db c s p sd ed) ∧
    (Except.ok ((get_business_and_state_ratings_comparison db id s pp sd ed).1.map
        regionToRating) = get_business_ratings_over_time db id p sd ed ∧
      (∀ x ∈ (get_business_and_state_ratings_comparison db id s pp sd ed).1,
        x.business_count = 1) ∧
      Except.ok (get_business_and_state_ratings_comparison db id s pp sd ed).2 =
        get_state_ratings_over_time db s p sd ed) ∧
    (Except.ok ((get_business_and_city_sentiment_comparison db id c s pp sd ed).1.map
        regionToSent) = get_business_sentiment_over_time db id p sd ed ∧
      (∀ x ∈ (get_business_and_city_sentiment_comparison db id c s pp sd ed).1,
        x.business_count = 1) ∧
      Except.ok (get_business_and_city_sentiment_comparison db id c s pp sd ed).2 =
        get_city_sentiment_over_time db c s p sd ed) ∧
    (Except.ok ((get_business_and_state_sentiment_comparison db id s pp sd ed).1.map
        regionToSent) = get_business_sentiment_over_time db id p sd ed ∧
      (∀ x ∈ (get_business_and_state_sentiment_comparison db id s pp sd ed).1,
        x.business_count = 1) ∧
      Except.ok (get_business_and_state_sentiment_comparison db id s pp sd ed).2 =
        get_state_sentiment_over_time db s p sd ed) := by
  have hrc := cmp_rating_case db id (.city c s) "city" rfl pp sd ed
  have hrs := cmp_rating_case db id (.state s) "state" rfl pp sd ed
  have hsc := cmp_sent_case db id (.city c s) "city" rfl pp sd ed
  have hss := cmp_sent_case db id (.state s) "state" rfl pp sd ed
  refine ⟨⟨?_, hrc.2.1, ?_⟩, ⟨?_, hrs.2.1, ?_⟩, ⟨?_, hsc.2.1, ?_⟩, ⟨?_, hss.2.1, ?_⟩⟩
  · simp only [get_business_ratings_over_time, hp]
    exact congrArg Except.ok hrc.1
  · simp only [get_city_ratings_over_time, hp]
    exact congrArg Except.ok hrc.2.2
  · simp only [get_business_ratings_over_time, hp]
    exact congrArg Except.ok hrs.1
  · simp only [get_state_ratings_over_time, hp]
    exact congrArg Except.ok hrs.2.2
  · simp only [get_business_sentiment_over_time, hp]
    exact congrArg Except.ok hsc.1
  · simp only [get_city_sentiment_over_time, hp]
    exact congrArg Except.ok hsc.2.2
  · simp only [get_business_sentiment_over_time, hp]
    exact congrArg Except.ok hss.1
  · simp only [get_state_sentiment_over_time, hp]
    exact congrArg Except.ok hss.2.2

/-- Witness for C2 on the worked-example store at period "month". -/
theorem comparison_is_split_witness :
    parsePeriod "month" = some Period.month ∧
    Except.ok ((get_business_and_city_ratings_comparison db8 "B1" "Philadelphia" "PA"
        .month none none).1.map regionToRating) =
      get_business_ratings_over_time db8 "B1" "month" none none :=
  ⟨rfl, (comparison_is_split_of_independent_series db8 "B1" "Philadelphia" "PA" "month"
    .month none none rfl).1.1⟩
